import Mathlib

/-!
Verification of the PerspectiveMeter geometric calibration and
uncertainty-propagation core against its specification.

The TypeScript sources are shallowly embedded over `ℝ` (JavaScript `number`
arithmetic is idealized as real arithmetic; JS `x || 1` on a number becomes
`if x = 0 then 1 else x`, and matrices, which the source keeps as flat
`number[]` arrays of 9 entries in row-major order, become `List ℝ` read
through `List.getD · 0`).  Two modules of the repository both export
geometry primitives: the line-calibration engine (embedded below in
namespace `PM.Core`, the module `App.tsx` imports) and the DLT estimator
module `src/utils/math.ts` (embedded in namespace `PM.MathUtils`).
-/

namespace PM

/-- Pixel- or world-space point `{x, y}` (src/types.ts). -/
structure Point where
  x : ℝ
  y : ℝ

instance : Inhabited Point := ⟨⟨0, 0⟩⟩

/-- A calibration line: endpoints, ground-truth length and angle, and the
`defined` flag (src/types.ts).  `endPt` embeds the source field `end`,
which is a reserved word in Lean. -/
structure CalibrationLine where
  id : String
  start : Point
  endPt : Point
  trueLength : ℝ
  angle : ℝ
  defined : Bool

instance : Inhabited CalibrationLine := ⟨⟨"", ⟨0, 0⟩, ⟨0, 0⟩, 0, 0, false⟩⟩

/-- A validation line (src/types.ts); optional display fields are omitted. -/
structure ValidationLine where
  id : String
  start : Point
  endPt : Point
  trueLength : ℝ
  defined : Bool

/-- A validation entry, the bias predictor's training datum (src/types.ts). -/
structure ValidationEntry where
  id : String
  pointA : Point
  pointB : Point
  midpoint : Point
  measuredDist : ℝ
  trueDist : ℝ
  errorPct : ℝ
  uncertainty : ℝ

/-- Output of a Monte Carlo run: `{mean, stdDev}`. -/
structure MCResult where
  mean : ℝ
  stdDev : ℝ

/-- Output of the bias predictor: `{ratio, confidence, localSigma}`. -/
structure BiasResult where
  ratio : ℝ
  confidence : ℝ
  localSigma : ℝ

/-- Symmetric confidence half-widths (src/types.ts). -/
structure ConfidenceIntervals where
  ci90 : ℝ
  ci95 : ℝ
  ci99 : ℝ

/-- The record returned by `optimizeHomographyFromLines` on success. -/
structure OptResult where
  matrix : List ℝ
  reprojectionErrors : List ℝ
  conditionNumber : ℝ
  mape : ℝ
  rmse : ℝ

namespace Core

/-- `undistortPoint` (line-engine module): single-coefficient division-model
radial undistortion; identity when `k1 = 0`. -/
noncomputable def undistortPoint (pt : Point) (k1 : ℝ) (center : Point) (diagonal : ℝ) : Point :=
  if k1 = 0 then pt
  else
    let dx := pt.x - center.x
    let dy := pt.y - center.y
    let r2 := (dx * dx + dy * dy) / (diagonal * diagonal)
    let factor := 1 + k1 * r2
    ⟨center.x + dx / factor, center.y + dy / factor⟩

/-- The projective denominator `w = h20·x + h21·y + h22` of a homography
(stored row-major in a `List ℝ`) at a point. -/
noncomputable def wOf (H : List ℝ) (pt : Point) : ℝ :=
  H.getD 6 0 * pt.x + H.getD 7 0 * pt.y + H.getD 8 0

/-- `applyHomography` (line-engine module): projective transform with the
degenerate-denominator guard returning the origin when `|w| < 1e-12`. -/
noncomputable def applyHomography (pt : Point) (H : List ℝ) : Point :=
  let h := fun i => H.getD i 0
  let w := wOf H pt
  if |w| < 1e-12 then ⟨0, 0⟩
  else ⟨(h 0 * pt.x + h 1 * pt.y + h 2) / w, (h 3 * pt.x + h 4 * pt.y + h 5) / w⟩

/-- `euclideanDistance`. -/
noncomputable def euclideanDistance (p1 p2 : Point) : ℝ :=
  Real.sqrt ((p1.x - p2.x) ^ 2 + (p1.y - p2.y) ^ 2)

/-- `multiplyMatrices`: 3×3 row-major matrix product; the source's triple
loop over `i, j, k` is unrolled into the nine entries. -/
noncomputable def multiplyMatrices (m1 m2 : List ℝ) : List ℝ :=
  let a := fun i => m1.getD i 0
  let b := fun i => m2.getD i 0
  [a 0 * b 0 + a 1 * b 3 + a 2 * b 6,
   a 0 * b 1 + a 1 * b 4 + a 2 * b 7,
   a 0 * b 2 + a 1 * b 5 + a 2 * b 8,
   a 3 * b 0 + a 4 * b 3 + a 5 * b 6,
   a 3 * b 1 + a 4 * b 4 + a 5 * b 7,
   a 3 * b 2 + a 4 * b 5 + a 5 * b 8,
   a 6 * b 0 + a 7 * b 3 + a 8 * b 6,
   a 6 * b 1 + a 7 * b 4 + a 8 * b 7,
   a 6 * b 2 + a 7 * b 5 + a 8 * b 8]

/-- `normalizePoints` (Hartley normalization): returns the normalized
points and the similarity transform `T`; JS `meanDist || 1` becomes the
explicit zero test. -/
noncomputable def normalizePoints (pts : List Point) : List Point × List ℝ :=
  let n : ℝ := pts.length
  let cx := (pts.foldl (fun acc p => acc + p.x) 0) / n
  let cy := (pts.foldl (fun acc p => acc + p.y) 0) / n
  let meanDist := (pts.foldl (fun acc p => acc + euclideanDistance p ⟨cx, cy⟩) 0) / n
  let scale := Real.sqrt 2 / (if meanDist = 0 then 1 else meanDist)
  let T := [scale, 0, -scale * cx, 0, scale, -scale * cy, 0, 0, 1]
  (pts.map fun p => ⟨(p.x - cx) * scale, (p.y - cy) * scale⟩, T)

/-- The denominator actually used by `predictBiasRatio` for one validation
entry: the source divides by `entry.measuredDist || 1`, substituting 1 for
a zero measured distance. -/
noncomputable def biasDenom (m : ℝ) : ℝ :=
  if m = 0 then 1 else m

/-- The Gaussian kernel weight `exp(-distSq / (2·800²))` between the query
midpoint and a validation entry's midpoint. -/
noncomputable def kernelWeight (midpoint : Point) (entry : ValidationEntry) : ℝ :=
  Real.exp (-(((midpoint.x - entry.midpoint.x) ^ 2 + (midpoint.y - entry.midpoint.y) ^ 2)) /
    (2 * 800 * 800))

/-- Accumulated kernel weight `totalWeight` of `predictBiasRatio`. -/
noncomputable def totalWeightOf (midpoint : Point) (history : List ValidationEntry) : ℝ :=
  history.foldl (fun acc entry => acc + kernelWeight midpoint entry) 0

/-- Accumulated `weightedRatio` of `predictBiasRatio`. -/
noncomputable def weightedRatioOf (midpoint : Point) (history : List ValidationEntry) : ℝ :=
  history.foldl
    (fun acc entry => acc + entry.trueDist / biasDenom entry.measuredDist *
      kernelWeight midpoint entry) 0

/-- `predictBiasRatio`: kernel-weighted ratio regression with the neutral
fallback (`baseSigma = 0.15`, `kernelSigma = 800`, `minResidualSigma = 0.02`
are inlined as in the source). -/
noncomputable def predictBiasRatio (midpoint : Point) (history : List ValidationEntry) :
    BiasResult :=
  if history.length = 0 then ⟨1.0, 0, 0.15⟩
  else
    let totalWeight := totalWeightOf midpoint history
    let weightedRatio := weightedRatioOf midpoint history
    let conf := min 1 totalWeight
    let ratio := if totalWeight > 0.1 then weightedRatio / totalWeight else 1.0
    let localSigma := 0.15 * (1 - conf) + 0.02 * conf
    ⟨ratio * conf + 1.0 * (1 - conf), conf, localSigma⟩

/-- The bespoke linear congruential generator driving the Monte Carlo
estimator: `seed = (seed·1664525 + 1013904223) mod 2^32`.  JS numbers are
exact on these integer sizes, so `ℕ` is a faithful carrier. -/
def lcg (s : ℕ) : ℕ :=
  (s * 1664525 + 1013904223) % 4294967296

/-- One inner Monte Carlo iteration: draw four noise values in LCG call
order (`nA.x`, `nA.y`, `nB.x`, `nB.y`), undistort and project the noised
endpoints, and append the resulting distance.  `seededRandom` advances the
seed and returns `newSeed / 2^32`. -/
noncomputable def mcStep (pA pB : Point) (H : List ℝ) (k1 : ℝ) (center : Point)
    (diag sigma : ℝ) (st : ℕ × List ℝ) : ℕ × List ℝ :=
  let s1 := lcg st.1
  let n1 := ((s1 : ℝ) / 4294967296 * 2 - 1) * sigma
  let s2 := lcg s1
  let n2 := ((s2 : ℝ) / 4294967296 * 2 - 1) * sigma
  let s3 := lcg s2
  let n3 := ((s3 : ℝ) / 4294967296 * 2 - 1) * sigma
  let s4 := lcg s3
  let n4 := ((s4 : ℝ) / 4294967296 * 2 - 1) * sigma
  let nA : Point := ⟨pA.x + n1, pA.y + n2⟩
  let nB : Point := ⟨pB.x + n3, pB.y + n4⟩
  let uA := undistortPoint nA k1 center diag
  let uB := undistortPoint nB k1 center diag
  (s4, st.2 ++ [euclideanDistance (applyHomography uA H) (applyHomography uB H)])

/-- One seed's Monte Carlo run: `iterations` inner samples threaded through
the LCG state, then the sample mean and the Bessel-corrected sample
standard deviation (JS `iterations - 1 || 1` becomes the zero test on the
real value `iterations - 1`). -/
noncomputable def mcSeedRun (pA pB : Point) (H : List ℝ) (k1 : ℝ) (center : Point)
    (diag : ℝ) (iterations : ℕ) (sigma : ℝ) (seedValue : ℕ) : MCResult :=
  let localDistances :=
    ((List.range iterations).foldl (fun st _ => mcStep pA pB H k1 center diag sigma st)
      (seedValue, [])).2
  let localMean := (localDistances.foldl (fun a b => a + b) 0) / (iterations : ℝ)
  let localVariance :=
    (localDistances.foldl (fun a b => a + (b - localMean) ^ 2) 0) /
      (if (iterations : ℝ) - 1 = 0 then 1 else (iterations : ℝ) - 1)
  ⟨localMean, Real.sqrt localVariance⟩

/-- `runMonteCarlo`: the 30-seed ensemble protocol — seeds `0..29`, one
seeded run each, and the arithmetic mean of the per-seed means and
standard deviations. -/
noncomputable def runMonteCarlo (pA pB : Point) (H : List ℝ) (k1 : ℝ) (center : Point)
    (diag : ℝ) (iterations : ℕ) (sigma : ℝ) : MCResult :=
  let ensembleResults :=
    (List.range 30).map (mcSeedRun pA pB H k1 center diag iterations sigma)
  ⟨(ensembleResults.foldl (fun acc r => acc + r.mean) 0) / 30,
   (ensembleResults.foldl (fun acc r => acc + r.stdDev) 0) / 30⟩

/-- The `k`-th uniform value a seed's LCG stream produces: the seed after
`k+1` updates, divided by `2^32`.  Spec-shaped counterpart used to state
the ensemble-structure claim; compare `mcStep`. -/
noncomputable def specUniform (seed k : ℕ) : ℝ :=
  ((lcg^[k + 1] seed : ℕ) : ℝ) / 4294967296

/-- The `k`-th noise value, uniform in `[-sigma, sigma]`. -/
noncomputable def specNoise (sigma : ℝ) (seed k : ℕ) : ℝ :=
  (specUniform seed k * 2 - 1) * sigma

/-- The `i`-th sampled distance of a seed's run, written against the
indexed LCG stream: noise values `4i..4i+3` perturb `A.x, A.y, B.x, B.y`. -/
noncomputable def specDist (pA pB : Point) (H : List ℝ) (k1 : ℝ) (center : Point)
    (diag sigma : ℝ) (seed i : ℕ) : ℝ :=
  let nA : Point := ⟨pA.x + specNoise sigma seed (4 * i), pA.y + specNoise sigma seed (4 * i + 1)⟩
  let nB : Point := ⟨pB.x + specNoise sigma seed (4 * i + 2), pB.y + specNoise sigma seed (4 * i + 3)⟩
  euclideanDistance
    (applyHomography (undistortPoint nA k1 center diag) H)
    (applyHomography (undistortPoint nB k1 center diag) H)

/-- A seed's sample mean and Bessel-corrected standard deviation, written
from the spec's description over the indexed distance list. -/
noncomputable def specSeedStats (pA pB : Point) (H : List ℝ) (k1 : ℝ) (center : Point)
    (diag : ℝ) (iterations : ℕ) (sigma : ℝ) (seed : ℕ) : MCResult :=
  let ds := (List.range iterations).map (specDist pA pB H k1 center diag sigma seed)
  let m := ds.sum / (iterations : ℝ)
  let v := ((ds.map fun d => (d - m) ^ 2).sum) /
    (if (iterations : ℝ) - 1 = 0 then 1 else (iterations : ℝ) - 1)
  ⟨m, Real.sqrt v⟩

/-- The spec's description of the whole estimator: the arithmetic mean over
the 30 fixed seeds `0..29` of each seed's sample mean and sample standard
deviation. -/
noncomputable def runMonteCarloSpecEnsemble (pA pB : Point) (H : List ℝ) (k1 : ℝ)
    (center : Point) (diag : ℝ) (iterations : ℕ) (sigma : ℝ) : MCResult :=
  let rs := (List.range 30).map (specSeedStats pA pB H k1 center diag iterations sigma)
  ⟨((rs.map MCResult.mean).sum) / 30, ((rs.map MCResult.stdDev).sum) / 30⟩

/-- One entry of the optimizer's per-line working data: normalized
endpoints, ground-truth length, the unit vector implied by the angle, and
the per-line weight (50 for the first line). -/
structure LineData where
  s : Point
  e : Point
  L : ℝ
  ux : ℝ
  uy : ℝ
  angle : ℝ
  weight : ℝ

instance : Inhabited LineData := ⟨⟨⟨0, 0⟩, ⟨0, 0⟩, 0, 0, 0, 0, 0⟩⟩

/-- The undistorted endpoint list of the active lines, in `start, end`
order per line. -/
noncomputable def rawPointsOf (activeLines : List CalibrationLine) (k1 : ℝ) (center : Point)
    (diag : ℝ) : List Point :=
  activeLines.flatMap fun l =>
    [undistortPoint l.start k1 center diag, undistortPoint l.endPt k1 center diag]

/-- Hartley transform `Tnorm` of the optimizer's preprocessing step. -/
noncomputable def TnormOf (activeLines : List CalibrationLine) (k1 : ℝ) (center : Point)
    (diag : ℝ) : List ℝ :=
  (normalizePoints (rawPointsOf activeLines k1 center diag)).2

/-- The optimizer's working data `data`: normalized endpoints paired with
each line's ground truth. -/
noncomputable def dataOf (activeLines : List CalibrationLine) (k1 : ℝ) (center : Point)
    (diag : ℝ) : List LineData :=
  let normalized := (normalizePoints (rawPointsOf activeLines k1 center diag)).1
  activeLines.enum.map fun p =>
    { s := normalized.getD (p.1 * 2) ⟨0, 0⟩
      e := normalized.getD (p.1 * 2 + 1) ⟨0, 0⟩
      L := p.2.trueLength
      ux := Real.sin (p.2.angle * Real.pi / 180)
      uy := Real.cos (p.2.angle * Real.pi / 180)
      angle := p.2.angle
      weight := if p.1 = 0 then 50.0 else 1.0 }

/-- Perturb parameter `i` of the homography vector by `eps`
(the source's `h[i] += eps`). -/
noncomputable def setAt (h : List ℝ) (i : ℕ) (eps : ℝ) : List ℝ :=
  h.set i (h.getD i 0 + eps)

/-- Componentwise sum of two gradient vectors. -/
noncomputable def addVec (a b : List ℝ) : List ℝ :=
  List.zipWith (· + ·) a b

/-- The length+alignment finite-difference gradient contribution of one
line to parameter `i` (`eps = 1e-8`, `lambdaAlign = 1`). -/
noncomputable def lineGradTerm (line : LineData) (h : List ℝ) (i : ℕ) : ℝ :=
  let p1 := applyHomography line.s h
  let p2 := applyHomography line.e h
  let vx := p2.x - p1.x
  let vy := p2.y - p1.y
  let dist := Real.sqrt (vx * vx + vy * vy)
  let resLen := (dist - line.L) * line.weight
  let resAlign := (vx * line.uy - vy * line.ux) * line.weight
  let h2 := setAt h i 1e-8
  let p1e := applyHomography line.s h2
  let p2e := applyHomography line.e h2
  let vxe := p2e.x - p1e.x
  let vye := p2e.y - p1e.y
  let diste := Real.sqrt (vxe * vxe + vye * vye)
  let dResLen := (diste - line.L) * line.weight - resLen
  let dResAlign := (vxe * line.uy - vye * line.ux) * line.weight - resAlign
  2 * resLen * (dResLen / 1e-8) + 2 * 1.0 * resAlign * (dResAlign / 1e-8)

/-- The accumulated length/alignment gradient over all lines. -/
noncomputable def lineGrads (data : List LineData) (h : List ℝ) : List ℝ :=
  data.foldl (fun g line => addVec g ((List.range 8).map (lineGradTerm line h)))
    (List.replicate 8 0)

/-- The projected endpoint cloud `worldPoints` of the current iterate. -/
noncomputable def worldPointsOf (data : List LineData) (h : List ℝ) : List Point :=
  data.flatMap fun line => [applyHomography line.s h, applyHomography line.e h]

/-- `spreadRatio`: the ratio `√λ_min / √λ_max` of the point cloud's 2×2
covariance eigenvalues, from the trace/determinant closed form; JS
`s1 || 1e-12` becomes the zero test. -/
noncomputable def covSpread (pts : List Point) : ℝ :=
  let n : ℝ := pts.length
  let mx := (pts.foldl (fun a p => a + p.x) 0) / n
  let my := (pts.foldl (fun a p => a + p.y) 0) / n
  let mXX := pts.foldl (fun a p => a + (p.x - mx) * (p.x - mx)) 0
  let mXY := pts.foldl (fun a p => a + (p.x - mx) * (p.y - my)) 0
  let mYY := pts.foldl (fun a p => a + (p.y - my) * (p.y - my)) 0
  let tr := mXX + mYY
  let det := mXX * mYY - mXY * mXY
  let disc := Real.sqrt (max 0 (tr * tr - 4 * det))
  let l1 := (tr + disc) / 2
  let l2 := (tr - disc) / 2
  let s1 := Real.sqrt l1
  let s2 := Real.sqrt l2
  s2 / (if s1 = 0 then 1e-12 else s1)

/-- The isotropy (SVD-ratio) penalty's finite-difference gradient for
parameter `i`; `penalty` is the unperturbed `(0.2 - spreadRatio)²` and the
perturbed cloud is recomputed from `data` exactly as the source does
(`lambdaSVD = 1e6`, `svdEps = 1e-8`). -/
noncomputable def svdGradTerm (data : List LineData) (h : List ℝ) (penalty : ℝ) (i : ℕ) : ℝ :=
  let h2 := setAt h i 1e-8
  let sRatioE := covSpread (worldPointsOf data h2)
  let penaltyE := (0.2 - sRatioE) ^ 2
  1000000.0 * (penaltyE - penalty) / 1e-8

/-- The normalized dot product between the projected directions of lines
`i` and `j`; JS `|v1||v2| || 1e-12` becomes the zero test. -/
noncomputable def dotOf (data : List LineData) (h : List ℝ) (i j : ℕ) : ℝ :=
  let di := data.getD i default
  let dj := data.getD j default
  let p1a := applyHomography di.s h
  let p1b := applyHomography di.e h
  let p2a := applyHomography dj.s h
  let p2b := applyHomography dj.e h
  let v1x := p1b.x - p1a.x
  let v1y := p1b.y - p1a.y
  let v2x := p2b.x - p2a.x
  let v2y := p2b.y - p2a.y
  let den := Real.sqrt (v1x * v1x + v1y * v1y) * Real.sqrt (v2x * v2x + v2y * v2y)
  (v1x * v2x + v1y * v2y) / (if den = 0 then 1e-12 else den)

/-- The orthogonality penalty's finite-difference gradient for parameter
`k` from the pair `(i, j)` (`lambdaOrtho = 5e5`, `oEps = 1e-8`). -/
noncomputable def orthoGradTerm (data : List LineData) (h : List ℝ) (i j k : ℕ) : ℝ :=
  let dot := dotOf data h i j
  let dotE := dotOf data (setAt h k 1e-8) i j
  500000.0 * 2 * dot * ((dotE - dot) / 1e-8)

/-- The index pairs `(i, j)` with `i < j` that the orthogonality loop
visits, in source order. -/
def pairsUpTo (n : ℕ) : List (ℕ × ℕ) :=
  (List.range n).flatMap fun i => ((List.range n).drop (i + 1)).map fun j => (i, j)

/-- The accumulated orthogonality gradient: pairs whose ground-truth angles
differ by 90° or 270° within 5°. -/
noncomputable def orthoGrads (data : List LineData) (h : List ℝ) : List ℝ :=
  (pairsUpTo data.length).foldl
    (fun g ij =>
      let angleDiff := |(data.getD ij.1 default).angle - (data.getD ij.2 default).angle|
      if |angleDiff - 90| < 5 ∨ |angleDiff - 270| < 5 then
        addVec g ((List.range 8).map (orthoGradTerm data h ij.1 ij.2))
      else g)
    (List.replicate 8 0)

/-- The optimizer's loop state: the 9-entry parameter vector (entry 8 fixed
at 1), the decaying base step size, and the last iteration's condition
number. -/
structure OptState where
  h : List ℝ
  stepSize : ℝ
  finalCond : ℝ

/-- One iteration of the fixed-budget gradient descent: accumulate the
length/alignment, isotropy and orthogonality gradients, take a norm-clamped
step on parameters `0..7`, and decay the step size every 3000 iterations. -/
noncomputable def optStep (data : List LineData) (st : OptState) (iter : ℕ) : OptState :=
  let wps := worldPointsOf data st.h
  let spreadRatio := covSpread wps
  let cond := 1 / (spreadRatio + 1e-9)
  let g0 := lineGrads data st.h
  let g1 :=
    if spreadRatio < 0.2 then
      addVec g0 ((List.range 8).map (svdGradTerm data st.h ((0.2 - spreadRatio) ^ 2)))
    else g0
  let g := addVec g1 (orthoGrads data st.h)
  let gNorm := Real.sqrt (g.foldl (fun acc x => acc + x * x) 0)
  let h2 :=
    if gNorm > 1e-12 then
      let step := min st.stepSize (0.1 / gNorm)
      (List.range 8).foldl (fun hh i => hh.set i (hh.getD i 0 - step * g.getD i 0)) st.h
    else st.h
  let s2 := if iter % 3000 = 0 then st.stepSize * 0.65 else st.stepSize
  ⟨h2, s2, cond⟩

/-- The optimizer's seed vector: the first line's length ratio on the
diagonal with the small `h7 = 1e-4` perspective perturbation; JS
`dist || 1` becomes the zero test. -/
noncomputable def initialH (data : List LineData) : List ℝ :=
  let d0 := data.getD 0 default
  let dd := euclideanDistance d0.s d0.e
  let initialScale := d0.L / (if dd = 0 then 1 else dd)
  [initialScale, 0, 0, 0, initialScale, 0, 0, 1e-4, 1]

/-- The full 30000-iteration gradient-descent loop
(`stepSize` starts at `1e-6`). -/
noncomputable def optLoop (data : List LineData) : OptState :=
  (List.range 30000).foldl (fun st iter => optStep data st iter) ⟨initialH data, 1e-6, 0⟩

/-- Un-normalized fitted matrix `hRaw = [...h, 1] · Tnorm`, as a function
of an arbitrary loop outcome `h`. -/
noncomputable def hRawOf (h : List ℝ) (activeLines : List CalibrationLine) (k1 : ℝ)
    (center : Point) (diag : ℝ) : List ℝ :=
  multiplyMatrices (h ++ [1]) (TnormOf activeLines k1 center diag)

/-- The anchor index: first active line attaining the maximal `trueLength`
(the source's fold with `maxLen` starting at `-1`). -/
noncomputable def anchorIdxOf (activeLines : List CalibrationLine) : ℕ :=
  (activeLines.enum.foldl
    (fun acc p => if p.2.trueLength > acc.2 then (p.1, p.2.trueLength) else acc)
    ((0 : ℕ), (-1 : ℝ))).1

/-- The anchor line. -/
noncomputable def anchorOf (activeLines : List CalibrationLine) : CalibrationLine :=
  activeLines.getD (anchorIdxOf activeLines) default

/-- Undistorted anchor start point `aS`. -/
noncomputable def aSOf (activeLines : List CalibrationLine) (k1 : ℝ) (center : Point)
    (diag : ℝ) : Point :=
  undistortPoint (anchorOf activeLines).start k1 center diag

/-- Undistorted anchor end point `aE`. -/
noncomputable def aEOf (activeLines : List CalibrationLine) (k1 : ℝ) (center : Point)
    (diag : ℝ) : Point :=
  undistortPoint (anchorOf activeLines).endPt k1 center diag

/-- The anchor's projected length `calcLen` under `hRaw`. -/
noncomputable def calcLenOf (h : List ℝ) (activeLines : List CalibrationLine) (k1 : ℝ)
    (center : Point) (diag : ℝ) : ℝ :=
  euclideanDistance
    (applyHomography (aSOf activeLines k1 center diag) (hRawOf h activeLines k1 center diag))
    (applyHomography (aEOf activeLines k1 center diag) (hRawOf h activeLines k1 center diag))

/-- The scale-lock factor `sFactor = trueLength / (calcLen || 1)`. -/
noncomputable def sFactorOf (h : List ℝ) (activeLines : List CalibrationLine) (k1 : ℝ)
    (center : Point) (diag : ℝ) : ℝ :=
  (anchorOf activeLines).trueLength /
    (if calcLenOf h activeLines k1 center diag = 0 then 1
     else calcLenOf h activeLines k1 center diag)

/-- The matrix after the scale lock. -/
noncomputable def hRaw2Of (h : List ℝ) (activeLines : List CalibrationLine) (k1 : ℝ)
    (center : Point) (diag : ℝ) : List ℝ :=
  let s := sFactorOf h activeLines k1 center diag
  multiplyMatrices [s, 0, 0, 0, s, 0, 0, 0, 1] (hRawOf h activeLines k1 center diag)

/-- JS `Math.atan2(y, x)`. -/
noncomputable def atan2 (y x : ℝ) : ℝ :=
  if 0 < x then Real.arctan (y / x)
  else if x < 0 then
    (if 0 ≤ y then Real.arctan (y / x) + Real.pi else Real.arctan (y / x) - Real.pi)
  else
    (if 0 < y then Real.pi / 2 else if y < 0 then -(Real.pi / 2) else 0)

/-- Projection `p1` of line 0's undistorted start under the scale-locked
matrix. -/
noncomputable def p1Of (h : List ℝ) (activeLines : List CalibrationLine) (k1 : ℝ)
    (center : Point) (diag : ℝ) : Point :=
  applyHomography (undistortPoint (activeLines.getD 0 default).start k1 center diag)
    (hRaw2Of h activeLines k1 center diag)

/-- Projection `p2` of line 0's undistorted end under the scale-locked
matrix. -/
noncomputable def p2Of (h : List ℝ) (activeLines : List CalibrationLine) (k1 : ℝ)
    (center : Point) (diag : ℝ) : Point :=
  applyHomography (undistortPoint (activeLines.getD 0 default).endPt k1 center diag)
    (hRaw2Of h activeLines k1 center diag)

/-- The rotation angle aligning line 0 with its ground-truth direction
(angles measured from the y axis, hence the swapped `atan2` arguments). -/
noncomputable def rotateAngleOf (h : List ℝ) (activeLines : List CalibrationLine) (k1 : ℝ)
    (center : Point) (diag : ℝ) : ℝ :=
  let p1 := p1Of h activeLines k1 center diag
  let p2 := p2Of h activeLines k1 center diag
  let rad0 := (activeLines.getD 0 default).angle * Real.pi / 180
  atan2 (Real.sin rad0) (Real.cos rad0) - atan2 (p2.x + -p1.x) (p2.y + -p1.y)

/-- The matrix after rotation/translation alignment, before the Y-flip
check: `R · [1,0,tx; 0,1,ty; 0,0,1] · hRaw2`. -/
noncomputable def preFlipHOf (h : List ℝ) (activeLines : List CalibrationLine) (k1 : ℝ)
    (center : Point) (diag : ℝ) : List ℝ :=
  let p1 := p1Of h activeLines k1 center diag
  let θ := rotateAngleOf h activeLines k1 center diag
  let R := [Real.cos θ, -Real.sin θ, 0, Real.sin θ, Real.cos θ, 0, 0, 0, 1]
  multiplyMatrices (multiplyMatrices R [1, 0, -p1.x, 0, 1, -p1.y, 0, 0, 1])
    (hRaw2Of h activeLines k1 center diag)

/-- The final matrix: the Y-axis orientation check flips the Y axis when
the image's upward direction projects below its downward direction. -/
noncomputable def finalHOf (h : List ℝ) (activeLines : List CalibrationLine) (k1 : ℝ)
    (center : Point) (diag : ℝ) : List ℝ :=
  let preH := preFlipHOf h activeLines k1 center diag
  if (applyHomography ⟨center.x, center.y - diag / 2⟩ preH).y <
      (applyHomography ⟨center.x, center.y + diag / 2⟩ preH).y then
    multiplyMatrices [1, 0, 0, 0, -1, 0, 0, 0, 1] preH
  else preH

/-- The loop outcome the optimizer feeds into post-processing. -/
noncomputable def loopHOf (activeLines : List CalibrationLine) (k1 : ℝ) (center : Point)
    (diag : ℝ) : List ℝ :=
  (optLoop (dataOf activeLines k1 center diag)).h

/-- Sum of squared ensemble-mean errors over the active lines (the final
calibration metrics use the Monte Carlo ensemble mean per line). -/
noncomputable def sumSqErrOf (activeLines : List CalibrationLine) (finalH : List ℝ) (k1 : ℝ)
    (center : Point) (diag : ℝ) : ℝ :=
  activeLines.foldl
    (fun acc line =>
      let mc := runMonteCarlo line.start line.endPt finalH k1 center diag 100 2.0
      acc + (mc.mean - line.trueLength) * (mc.mean - line.trueLength)) 0

/-- Sum of absolute percentage ensemble-mean errors over the active
lines. -/
noncomputable def sumAbsPctErrOf (activeLines : List CalibrationLine) (finalH : List ℝ)
    (k1 : ℝ) (center : Point) (diag : ℝ) : ℝ :=
  activeLines.foldl
    (fun acc line =>
      let mc := runMonteCarlo line.start line.endPt finalH k1 center diag 100 2.0
      acc + |(mc.mean - line.trueLength) / line.trueLength|) 0

/-- The body of `optimizeHomographyFromLines` on the already-filtered
active line list. -/
noncomputable def optimizeActive (activeLines : List CalibrationLine) (k1 : ℝ)
    (center : Point) (diag : ℝ) : Option OptResult :=
  if activeLines.length < 2 then none
  else
    let finalH := finalHOf (loopHOf activeLines k1 center diag) activeLines k1 center diag
    some
      { matrix := finalH
        reprojectionErrors := activeLines.map fun _ => 0
        conditionNumber := (optLoop (dataOf activeLines k1 center diag)).finalCond
        mape := sumAbsPctErrOf activeLines finalH k1 center diag / activeLines.length * 100
        rmse := Real.sqrt (sumSqErrOf activeLines finalH k1 center diag / activeLines.length) }

/-- `optimizeHomographyFromLines`: filter to the `defined` lines, fail
below 2, otherwise run the fixed-budget optimizer and post-processing. -/
noncomputable def optimizeHomographyFromLines (lines : List CalibrationLine) (k1 : ℝ)
    (center : Point) (diag : ℝ) : Option OptResult :=
  optimizeActive (lines.filter fun l => l.defined) k1 center diag

end Core

namespace MathUtils

/-- `applyHomography` from `src/utils/math.ts`: the same projective
transform as `Core.applyHomography` but with NO degenerate-denominator
guard — it divides by `w` unconditionally. -/
noncomputable def applyHomography (pt : Point) (H : List ℝ) : Point :=
  let h := fun i => H.getD i 0
  let w := h 6 * pt.x + h 7 * pt.y + h 8
  ⟨(h 0 * pt.x + h 1 * pt.y + h 2) / w, (h 3 * pt.x + h 4 * pt.y + h 5) / w⟩

/-- The row index of the partial-pivoting search for column `i`: scan rows
`i+1..n-1`, keeping the first row of strictly largest `|mat[j][i]|`. -/
noncomputable def pivotSearch (n : ℕ) (mat : List (List ℝ)) (i : ℕ) : ℕ :=
  ((List.range n).drop (i + 1)).foldl
    (fun mx j =>
      if |(mat.getD j []).getD i 0| > |(mat.getD mx []).getD i 0| then j else mx) i

/-- Swap rows `i` and `j` (the source's destructuring swap reads both rows
before writing). -/
noncomputable def swapRows (mat : List (List ℝ)) (i j : ℕ) : List (List ℝ) :=
  (mat.set i (mat.getD j [])).set j (mat.getD i [])

/-- Eliminate column `i` from one lower `row` using the pivot row: for
`k ≥ i`, `row[k] -= (row[i]/piv) * pivotRow[k]` (the source's `k` runs from
`i` to `n`, which covers every remaining column of the width-`n+1`
augmented row). -/
noncomputable def elimRow (pivotRowVals : List ℝ) (piv : ℝ) (i n : ℕ) (row : List ℝ) :
    List ℝ :=
  let factor := row.getD i 0 / piv
  (List.range (n + 1)).map fun k =>
    if i ≤ k then row.getD k 0 - factor * pivotRowVals.getD k 0 else row.getD k 0

/-- One forward-elimination step: pivot search, swap, the `1e-18` pivot
magnitude check, then elimination of rows `j > i`. -/
noncomputable def forwardStep (n : ℕ) (mat : List (List ℝ)) (i : ℕ) :
    Option (List (List ℝ)) :=
  let mx := pivotSearch n mat i
  let m2 := swapRows mat i mx
  let piv := (m2.getD i []).getD i 0
  if |piv| < 1e-18 then none
  else
    some ((List.range n).map fun j =>
      if i < j then elimRow (m2.getD i []) piv i n (m2.getD j []) else m2.getD j [])

/-- The whole forward-elimination pass over columns `0..n-1`. -/
noncomputable def forwardAll (n : ℕ) (mat : List (List ℝ)) : Option (List (List ℝ)) :=
  (List.range n).foldl (fun acc i => acc.bind fun m => forwardStep n m i) (some mat)

/-- Back substitution on the upper-triangular augmented matrix:
`x[i] = (mat[i][n] - Σ_{j>i} mat[i][j]·x[j]) / mat[i][i]`, for `i` from
`n-1` down to `0`. -/
noncomputable def backSub (n : ℕ) (mat : List (List ℝ)) : List ℝ :=
  ((List.range n).reverse).foldl
    (fun x i =>
      let row := mat.getD i []
      let s := ((List.range n).drop (i + 1)).foldl
        (fun acc j => acc + row.getD j 0 * x.getD j 0) 0
      x.set i ((row.getD n 0 - s) / row.getD i 0))
    (List.replicate n 0)

/-- `solveLinearSystem`: Gaussian elimination with partial pivoting on the
augmented matrix `[A | B]`; `none` when a pivot magnitude falls below
`1e-18`. -/
noncomputable def solveLinearSystem (A : List (List ℝ)) (B : List ℝ) : Option (List ℝ) :=
  let n := B.length
  let mat := List.zipWith (fun row b => row ++ [b]) A B
  match forwardAll n mat with
  | none => none
  | some m => some (backSub n m)

/-- The source-point centroid x coordinate used by `computeHomography`'s
internal normalization. -/
noncomputable def centroidX (pts : List Point) : ℝ :=
  (pts.foldl (fun acc p => acc + p.x) 0) / (pts.length : ℝ)

/-- The source-point centroid y coordinate. -/
noncomputable def centroidY (pts : List Point) : ℝ :=
  (pts.foldl (fun acc p => acc + p.y) 0) / (pts.length : ℝ)

/-- The normalization scale `√2 / (meanDist || 1)` of `computeHomography`'s
internal `normalize`. -/
noncomputable def normScale (pts : List Point) : ℝ :=
  let cx := centroidX pts
  let cy := centroidY pts
  let meanDist :=
    (pts.foldl (fun acc p => acc + Real.sqrt ((p.x - cx) ^ 2 + (p.y - cy) ^ 2)) 0) /
      (pts.length : ℝ)
  Real.sqrt 2 / (if meanDist = 0 then 1 else meanDist)

/-- The normalized point list of `computeHomography`'s internal
`normalize`. -/
noncomputable def normPtsOf (pts : List Point) : List Point :=
  pts.map fun p => ⟨(p.x - centroidX pts) * normScale pts, (p.y - centroidY pts) * normScale pts⟩

/-- The similarity transform `T` of the internal `normalize`. -/
noncomputable def normT (pts : List Point) : List ℝ :=
  let s := normScale pts
  [s, 0, -s * centroidX pts, 0, s, -s * centroidY pts, 0, 0, 1]

/-- The inverse transform `Tinv` of the internal `normalize`. -/
noncomputable def normTinv (pts : List Point) : List ℝ :=
  let s := normScale pts
  [1 / s, 0, centroidX pts, 0, 1 / s, centroidY pts, 0, 0, 1]

/-- The two DLT rows contributed by the `i`-th normalized correspondence,
and the full coefficient matrix `A` (each pair `(x,y) ↦ (u,v)` contributes
`[x,y,1,0,0,0,-ux,-uy]` and `[0,0,0,x,y,1,-vx,-vy]`). -/
noncomputable def dltA (s d : List Point) : List (List ℝ) :=
  (List.range s.length).flatMap fun i =>
    let p := s.getD i ⟨0, 0⟩
    let q := d.getD i ⟨0, 0⟩
    [[p.x, p.y, 1, 0, 0, 0, -q.x * p.x, -q.x * p.y],
     [0, 0, 0, p.x, p.y, 1, -q.y * p.x, -q.y * p.y]]

/-- The DLT right-hand side `B` (`u` then `v` per correspondence). -/
noncomputable def dltB (d : List Point) : List ℝ :=
  (List.range d.length).flatMap fun i =>
    let q := d.getD i ⟨0, 0⟩
    [q.x, q.y]

/-- The normal-equations matrix `AᵀA` (8×8). -/
noncomputable def dltAtA (A : List (List ℝ)) : List (List ℝ) :=
  (List.range 8).map fun i =>
    (List.range 8).map fun j =>
      A.foldl (fun sum row => sum + row.getD i 0 * row.getD j 0) 0

/-- The normal-equations right-hand side `AᵀB` (length 8). -/
noncomputable def dltAtB (A : List (List ℝ)) (B : List ℝ) : List ℝ :=
  (List.range 8).map fun i =>
    (List.zip A B).foldl (fun sum rb => sum + rb.1.getD i 0 * rb.2) 0

/-- 3×3 row-major matrix product (the local `mult` inside
`computeHomography`, identical to `Core.multiplyMatrices`). -/
noncomputable def mult (M1 M2 : List ℝ) : List ℝ :=
  Core.multiplyMatrices M1 M2

/-- `computeHomography`: normalize both point sets, build and solve the
normal equations of the 8-parameter DLT, then un-normalize with
`Tinv_d · Hn · T_s`.  Fails for fewer than 4 points, mismatched lengths,
or a near-singular system. -/
noncomputable def computeHomography (src dst : List Point) : Option (List ℝ) :=
  if src.length < 4 ∨ src.length ≠ dst.length then none
  else
    let sN := normPtsOf src
    let dN := normPtsOf dst
    let A := dltA sN dN
    let B := dltB dN
    match solveLinearSystem (dltAtA A) (dltAtB A B) with
    | none => none
    | some hNorm => some (mult (normTinv dst) (mult (hNorm ++ [1]) (normT src)))

end MathUtils

namespace App

/-- The validation-entry list `calculateMeasurement` builds for the bias
predictor: `defined` validation lines of positive `trueLength`, measured
through the current homography (JS `trueLength || 1` in the error
percentage becomes the zero test). -/
noncomputable def valEntriesOf (validationLines : List ValidationLine) (H : List ℝ)
    (lensK1 : ℝ) (center : Point) (diag : ℝ) : List ValidationEntry :=
  (validationLines.filter fun vl => vl.defined && decide (vl.trueLength > (0 : ℝ))).map fun vl =>
    let vA := Core.undistortPoint vl.start lensK1 center diag
    let vB := Core.undistortPoint vl.endPt lensK1 center diag
    let mD := Core.euclideanDistance (Core.applyHomography vA H) (Core.applyHomography vB H)
    { id := vl.id
      pointA := vl.start
      pointB := vl.endPt
      midpoint := ⟨(vl.start.x + vl.endPt.x) / 2, (vl.start.y + vl.endPt.y) / 2⟩
      measuredDist := mD
      trueDist := vl.trueLength
      errorPct := (mD - vl.trueLength) / (if vl.trueLength = (0 : ℝ) then (1 : ℝ) else vl.trueLength) * 100
      uncertainty := 0 }

/-- The measurement midpoint fed to the bias predictor. -/
noncomputable def midOf (pointA pointB : Point) : Point :=
  ⟨(pointA.x + pointB.x) / 2, (pointA.y + pointB.y) / 2⟩

/-- The record `calculateMeasurement` stores for a measurement. -/
structure CalcResult where
  dist : ℝ
  rawDist : ℝ
  biasCorrection : ℝ
  uncertainty : ℝ
  intervals : ConfidenceIntervals

/-- The numeric core of `App.tsx`'s `calculateMeasurement` (the identical
formulas also appear in `Sidebar.tsx`'s measurement update): raw projected
distance, bias correction, Monte Carlo spread, the combined
`sigmaTotal = sqrt(mcStdDev² + sigmaGPR²)` and the three normal-critical
half-widths. -/
noncomputable def calculateMeasurement (pointA pointB : Point) (H : List ℝ)
    (lensK1 imgW imgH : ℝ) (validationLines : List ValidationLine) : CalcResult :=
  let center : Point := ⟨imgW / 2, imgH / 2⟩
  let diag := Real.sqrt (imgW * imgW + imgH * imgH)
  let uA := Core.undistortPoint pointA lensK1 center diag
  let uB := Core.undistortPoint pointB lensK1 center diag
  let rawDist := Core.euclideanDistance (Core.applyHomography uA H) (Core.applyHomography uB H)
  let valEntries := valEntriesOf validationLines H lensK1 center diag
  let biasRes := Core.predictBiasRatio (midOf pointA pointB) valEntries
  let correctedDist := rawDist * biasRes.ratio
  let mc := Core.runMonteCarlo pointA pointB H lensK1 center diag 100 2.0
  let sigmaGPR := if biasRes.confidence > 0 then biasRes.localSigma else correctedDist * 0.15
  let sigmaTotal := Real.sqrt (mc.stdDev ^ 2 + sigmaGPR ^ 2)
  { dist := correctedDist
    rawDist := rawDist
    biasCorrection := (biasRes.ratio - 1) * 100
    uncertainty := sigmaTotal
    intervals := ⟨1.645 * sigmaTotal, 1.960 * sigmaTotal, 2.576 * sigmaTotal⟩ }

end App

/-- A concrete 4-point source quadrilateral (a square with centroid
`(1,1)` and rational Hartley scale) used to exercise `computeHomography`. -/
noncomputable def csrcC4 : List Point :=
  [⟨0, 0⟩, ⟨2, 0⟩, ⟨2, 2⟩, ⟨0, 2⟩]

/-- A concrete 4-point destination trapezoid (centroid `(0,0)`, rational
Hartley scale `1/3`) whose correspondence with `csrcC4` is genuinely
projective. -/
noncomputable def cdstC4 : List Point :=
  [⟨-7, -1⟩, ⟨7, -1⟩, ⟨1, 1⟩, ⟨-1, 1⟩]

/-- A concrete defined calibration line (length 2) for witnessing the
scale-lock theorem. -/
noncomputable def wLineA : CalibrationLine :=
  ⟨"1", ⟨0, 0⟩, ⟨2, 0⟩, 2, 90, true⟩

/-- A concrete defined calibration line (length 3, the anchor). -/
noncomputable def wLineB : CalibrationLine :=
  ⟨"2", ⟨0, 2⟩, ⟨2, 2⟩, 3, 90, true⟩

/-! ## Theorems -/

/-- C3 (amended): the degenerate-denominator guard holds for the
line-engine's `applyHomography` (the one the optimizer and `App.tsx` use):
whenever `|w| < 1e-12` the origin is returned instead of dividing.  The
`applyHomography` of `src/utils/math.ts` carries no such guard — see the
counterexample. -/
theorem applyHomography_guard_returns_origin (pt : Point) (H : List ℝ)
    (hw : |Core.wOf H pt| < 1e-12) :
    Core.applyHomography pt H = ⟨0, 0⟩ := by
  unfold Core.applyHomography
  simp only [if_pos hw]

/-- Witness for C3: a concrete homography with exactly zero denominator at
a concrete point. -/
theorem applyHomography_guard_witness :
    |Core.wOf [1, 0, 1, 0, 1, 1, 0, 0, 0] ⟨5, 7⟩| < 1e-12 ∧
    Core.applyHomography ⟨5, 7⟩ [1, 0, 1, 0, 1, 1, 0, 0, 0] = ⟨0, 0⟩ := by
  have hw : |Core.wOf [1, 0, 1, 0, 1, 1, 0, 0, 0] (⟨5, 7⟩ : Point)| < 1e-12 := by
    simp [Core.wOf]
    norm_num
  exact ⟨hw, applyHomography_guard_returns_origin _ _ hw⟩

/-- Counterexample for C3 as stated: the `applyHomography` exposed by
`src/utils/math.ts` divides by a denominator of magnitude below `1e-12`
instead of returning the origin. -/
theorem applyHomography_mathUtils_no_guard :
    |Core.wOf [1, 0, 1, 0, 1, 1, 0, 0, 1e-13] ⟨0, 0⟩| < 1e-12 ∧
    MathUtils.applyHomography ⟨0, 0⟩ [1, 0, 1, 0, 1, 1, 0, 0, 1e-13] ≠ ⟨0, 0⟩ := by
  constructor
  · simp [Core.wOf]
    rw [abs_of_pos (by norm_num)]
    norm_num
  · simp [MathUtils.applyHomography, Point.mk.injEq]
    norm_num

/-- C6: `optimizeHomographyFromLines` fails exactly when fewer than 2
`defined` lines are supplied; with at least 2 it always returns a result
record (the embedding is a total function — the fixed 30000-iteration
loop and the post-processing are ordinary terminating folds, so no input
can raise an exception). -/
theorem optimize_none_iff_lt_two (lines : List CalibrationLine) (k1 : ℝ) (center : Point)
    (diag : ℝ) :
    Core.optimizeHomographyFromLines lines k1 center diag = none ↔
      (lines.filter fun l => l.defined).length < 2 := by
  unfold Core.optimizeHomographyFromLines Core.optimizeActive
  by_cases hc : (lines.filter fun l => l.defined).length < 2 <;> simp [hc]

/-- C9: `computeHomography` fails on mismatched list lengths regardless of
size, and any non-failure run had equal-length lists of at least 4
points. -/
theorem computeHomography_length_guard (src dst : List Point) :
    (src.length ≠ dst.length → MathUtils.computeHomography src dst = none) ∧
    (MathUtils.computeHomography src dst ≠ none →
      4 ≤ src.length ∧ src.length = dst.length) := by
  constructor
  · intro h
    unfold MathUtils.computeHomography
    rw [if_pos (Or.inr h)]
  · intro h
    by_cases hc : src.length < 4 ∨ src.length ≠ dst.length
    · exact absurd (by unfold MathUtils.computeHomography; rw [if_pos hc]) h
    · push_neg at hc
      exact ⟨hc.1, hc.2⟩

/-- Witness for C9: two lists of 4 and 5 points (both at least 4 long)
still yield the failure value. -/
theorem computeHomography_length_guard_witness :
    ([⟨0, 0⟩, ⟨1, 0⟩, ⟨1, 1⟩, ⟨0, 1⟩] : List Point).length ≠
      ([⟨0, 0⟩, ⟨1, 0⟩, ⟨1, 1⟩, ⟨0, 1⟩, ⟨2, 2⟩] : List Point).length ∧
    MathUtils.computeHomography [⟨0, 0⟩, ⟨1, 0⟩, ⟨1, 1⟩, ⟨0, 1⟩]
      [⟨0, 0⟩, ⟨1, 0⟩, ⟨1, 1⟩, ⟨0, 1⟩, ⟨2, 2⟩] = none := by
  refine ⟨by simp, ?_⟩
  exact (computeHomography_length_guard _ _).1 (by simp)

/-- C2 (amended): the optimizer's participation filter is `defined` alone —
calling it on the sublist of `defined` lines changes nothing.  A `defined`
line with `trueLength ≤ 0` does participate (see the counterexample), so
filtering on `trueLength > 0` as the claim states can change the result. -/
theorem optimize_filter_defined_only (lines : List CalibrationLine) (k1 : ℝ)
    (center : Point) (diag : ℝ) :
    Core.optimizeHomographyFromLines lines k1 center diag =
      Core.optimizeHomographyFromLines (lines.filter fun l => l.defined) k1 center diag := by
  unfold Core.optimizeHomographyFromLines
  rw [List.filter_filter]
  simp only [Bool.and_self]

/-- Counterexample for C2 as stated: a `defined` line with `trueLength = 0`
is counted toward the 2-line threshold, so dropping it flips success into
failure. -/
theorem optimize_zero_length_participates :
    Core.optimizeHomographyFromLines
        [⟨"a", ⟨0, 0⟩, ⟨1, 0⟩, 1, 0, true⟩, ⟨"b", ⟨0, 1⟩, ⟨1, 1⟩, 0, 0, true⟩] 0 ⟨0, 0⟩ 1 ≠
      Core.optimizeHomographyFromLines
        (([⟨"a", ⟨0, 0⟩, ⟨1, 0⟩, 1, 0, true⟩,
           ⟨"b", ⟨0, 1⟩, ⟨1, 1⟩, 0, 0, true⟩] : List CalibrationLine).filter
          fun l => l.defined && decide (l.trueLength > (0 : ℝ)))
        0 ⟨0, 0⟩ 1 := by
  have hfilter :
      (([⟨"a", ⟨0, 0⟩, ⟨1, 0⟩, 1, 0, true⟩,
         ⟨"b", ⟨0, 1⟩, ⟨1, 1⟩, 0, 0, true⟩] : List CalibrationLine).filter
        fun l => l.defined && decide (l.trueLength > (0 : ℝ))) =
      [⟨"a", ⟨0, 0⟩, ⟨1, 0⟩, 1, 0, true⟩] := by
    simp [List.filter]
  rw [hfilter]
  unfold Core.optimizeHomographyFromLines Core.optimizeActive
  simp [List.filter]

/-- C5 (amended): with an empty validation history `predictBiasRatio`
returns `ratio = 1, confidence = 0, localSigma = 0.15`; with a non-empty
history of accumulated weight at most `0.1` the returned ratio is the
neutral 1.0, but the confidence is `min 1 totalWeight` (a positive value,
not 0 — see the counterexample). -/
theorem predictBias_fallback (q : Point) (history : List ValidationEntry) :
    Core.predictBiasRatio q [] = ⟨1.0, 0, 0.15⟩ ∧
    (history ≠ [] → Core.totalWeightOf q history ≤ 0.1 →
      (Core.predictBiasRatio q history).ratio = 1 ∧
      (Core.predictBiasRatio q history).confidence =
        min 1 (Core.totalWeightOf q history)) := by
  constructor
  · rfl
  · intro hne hw
    have hlen : ¬ history.length = 0 := by
      simpa [List.length_eq_zero] using hne
    have hr : ¬ (Core.totalWeightOf q history > 0.1) := not_lt.mpr hw
    unfold Core.predictBiasRatio
    rw [if_neg hlen]
    simp only [if_neg hr]
    constructor
    · ring
    · trivial

/-- Counterexample for C5 as stated: one far-away validation entry gives an
accumulated weight below `0.1`, yet the returned confidence is the
(positive) accumulated weight, not 0. -/
theorem predictBias_low_weight_confidence_pos :
    Core.totalWeightOf ⟨0, 0⟩ [⟨"v", ⟨0, 0⟩, ⟨0, 0⟩, ⟨1960, 0⟩, 1, 1, 0, 0⟩] < 0.1 ∧
    (Core.predictBiasRatio ⟨0, 0⟩
        [⟨"v", ⟨0, 0⟩, ⟨0, 0⟩, ⟨1960, 0⟩, 1, 1, 0, 0⟩]).confidence ≠ 0 := by
  have harg : -(((0 : ℝ) - 1960) ^ 2 + ((0 : ℝ) - 0) ^ 2) / (2 * 800 * 800) =
      -(2401 / 800) := by norm_num
  have hw : Core.totalWeightOf ⟨0, 0⟩ [⟨"v", ⟨0, 0⟩, ⟨0, 0⟩, ⟨1960, 0⟩, 1, 1, 0, 0⟩] =
      Real.exp (-(2401 / 800)) := by
    unfold Core.totalWeightOf Core.kernelWeight
    simp only [List.foldl_cons, List.foldl_nil, zero_add]
    rw [harg]
  have hexp3 : (10 : ℝ) < Real.exp 3 := by
    have h0 : (2.7 : ℝ) ≤ Real.exp 1 := by
      have := Real.exp_one_gt_d9
      linarith
    have h1 : (2.7 : ℝ) ^ 3 ≤ Real.exp 1 ^ 3 :=
      pow_le_pow_left (by norm_num) h0 3
    have h2 : Real.exp 1 ^ (3 : ℕ) = Real.exp 3 := by
      rw [← Real.exp_nat_mul]
      norm_num
    nlinarith
  have hlt : Real.exp (-(2401 / 800)) < 0.1 := by
    have h1 : Real.exp (-(2401 / 800 : ℝ)) ≤ Real.exp (-3) := by
      apply Real.exp_le_exp.mpr
      norm_num
    have h2 : Real.exp (-(3 : ℝ)) = (Real.exp 3)⁻¹ := Real.exp_neg 3
    have h3 : (Real.exp 3)⁻¹ < 0.1 := by
      rw [show (0.1 : ℝ) = 10⁻¹ by norm_num]
      exact inv_lt_inv_of_lt (by norm_num) hexp3
    linarith
  have hpos : (0 : ℝ) < Real.exp (-(2401 / 800)) := Real.exp_pos _
  refine ⟨by rw [hw]; exact hlt, ?_⟩
  unfold Core.predictBiasRatio
  rw [if_neg (by simp)]
  simp only
  rw [hw]
  have : (0 : ℝ) < min 1 (Real.exp (-(2401 / 800))) := lt_min one_pos hpos
  exact ne_of_gt this

theorem biasDenom_ne_zero (m : ℝ) : Core.biasDenom m ≠ 0 := by
  unfold Core.biasDenom
  split
  · norm_num
  · assumption

theorem biasDenom_idem (m : ℝ) :
    Core.biasDenom (Core.biasDenom m) = Core.biasDenom m := by
  unfold Core.biasDenom
  by_cases h : m = 0 <;> simp [h]

theorem totalWeightOf_le_foldl (q : Point) (l : List ValidationEntry) :
    ∀ a : ℝ, a ≤ l.foldl (fun acc e => acc + Core.kernelWeight q e) a := by
  induction l with
  | nil => intro a; simp
  | cons e t ih =>
    intro a
    calc a ≤ a + Core.kernelWeight q e := le_add_of_nonneg_right (Real.exp_pos _).le
    _ ≤ _ := ih _

theorem totalWeightOf_nonneg (q : Point) (l : List ValidationEntry) :
    0 ≤ Core.totalWeightOf q l :=
  totalWeightOf_le_foldl q l 0

theorem kernelWeight_update (q : Point) (e : ValidationEntry) (m : ℝ) :
    Core.kernelWeight q { e with measuredDist := m } = Core.kernelWeight q e := rfl

theorem totalWeightOf_map_denom (q : Point) (l : List ValidationEntry) :
    Core.totalWeightOf q
        (l.map fun e => { e with measuredDist := Core.biasDenom e.measuredDist }) =
      Core.totalWeightOf q l := by
  unfold Core.totalWeightOf
  rw [List.foldl_map]
  simp only [kernelWeight_update]

theorem weightedRatioOf_map_denom (q : Point) (l : List ValidationEntry) :
    Core.weightedRatioOf q
        (l.map fun e => { e with measuredDist := Core.biasDenom e.measuredDist }) =
      Core.weightedRatioOf q l := by
  unfold Core.weightedRatioOf
  rw [List.foldl_map]
  simp only [kernelWeight_update, biasDenom_idem]

/-- C10: `predictBiasRatio` never divides by a zero measured distance — the
substituted denominator `measuredDist || 1` is provably nonzero, so
replacing each entry's measured distance by that denominator changes
nothing; and on every finite input the outputs are well-defined reals with
`confidence ∈ [0, 1]` and `localSigma ∈ [0.02, 0.15]` (in this real-number
embedding no NaN or infinity can arise: every division performed is by a
nonzero value). -/
theorem predictBias_total_zero_denominator (q : Point) (history : List ValidationEntry) :
    Core.predictBiasRatio q history =
      Core.predictBiasRatio q
        (history.map fun e => { e with measuredDist := Core.biasDenom e.measuredDist }) ∧
    (∀ e ∈ history, Core.biasDenom e.measuredDist ≠ 0) ∧
    0 ≤ (Core.predictBiasRatio q history).confidence ∧
    (Core.predictBiasRatio q history).confidence ≤ 1 ∧
    0.02 ≤ (Core.predictBiasRatio q history).localSigma ∧
    (Core.predictBiasRatio q history).localSigma ≤ 0.15 := by
  refine ⟨?_, fun e _ => biasDenom_ne_zero _, ?_⟩
  · unfold Core.predictBiasRatio
    rw [List.length_map, totalWeightOf_map_denom, weightedRatioOf_map_denom]
  · by_cases hlen : history.length = 0
    · simp only [Core.predictBiasRatio, hlen, if_pos]
      norm_num
    · unfold Core.predictBiasRatio
      rw [if_neg hlen]
      have hw0 : 0 ≤ Core.totalWeightOf q history := totalWeightOf_nonneg q history
      have hc0 : 0 ≤ min 1 (Core.totalWeightOf q history) := le_min (by norm_num) hw0
      have hc1 : min 1 (Core.totalWeightOf q history) ≤ 1 := min_le_left _ _
      refine ⟨hc0, hc1, by simp only; nlinarith, by simp only; nlinarith⟩

/-- C8: the uncertainty combiner of `calculateMeasurement`:
`sigmaTotal = sqrt(mcStdDev² + sigmaGPR²)` with `sigmaGPR` the bias model's
`localSigma` when its confidence is positive and 15% of the corrected
distance when the confidence is 0, and the three interval half-widths are
`1.645·σ`, `1.960·σ`, `2.576·σ`. -/
theorem uncertainty_combiner (pointA pointB : Point) (H : List ℝ)
    (lensK1 imgW imgH : ℝ) (validationLines : List ValidationLine) :
    (0 < (Core.predictBiasRatio (App.midOf pointA pointB)
          (App.valEntriesOf validationLines H lensK1 ⟨imgW / 2, imgH / 2⟩
            (Real.sqrt (imgW * imgW + imgH * imgH)))).confidence →
      (App.calculateMeasurement pointA pointB H lensK1 imgW imgH validationLines).uncertainty =
        Real.sqrt
          ((Core.runMonteCarlo pointA pointB H lensK1 ⟨imgW / 2, imgH / 2⟩
              (Real.sqrt (imgW * imgW + imgH * imgH)) 100 2.0).stdDev ^ 2 +
            (Core.predictBiasRatio (App.midOf pointA pointB)
              (App.valEntriesOf validationLines H lensK1 ⟨imgW / 2, imgH / 2⟩
                (Real.sqrt (imgW * imgW + imgH * imgH)))).localSigma ^ 2)) ∧
    ((Core.predictBiasRatio (App.midOf pointA pointB)
          (App.valEntriesOf validationLines H lensK1 ⟨imgW / 2, imgH / 2⟩
            (Real.sqrt (imgW * imgW + imgH * imgH)))).confidence = 0 →
      (App.calculateMeasurement pointA pointB H lensK1 imgW imgH validationLines).uncertainty =
        Real.sqrt
          ((Core.runMonteCarlo pointA pointB H lensK1 ⟨imgW / 2, imgH / 2⟩
              (Real.sqrt (imgW * imgW + imgH * imgH)) 100 2.0).stdDev ^ 2 +
            ((App.calculateMeasurement pointA pointB H lensK1 imgW imgH
                validationLines).dist * 0.15) ^ 2)) ∧
    (App.calculateMeasurement pointA pointB H lensK1 imgW imgH validationLines).intervals.ci90 =
      1.645 * (App.calculateMeasurement pointA pointB H lensK1 imgW imgH
        validationLines).uncertainty ∧
    (App.calculateMeasurement pointA pointB H lensK1 imgW imgH validationLines).intervals.ci95 =
      1.960 * (App.calculateMeasurement pointA pointB H lensK1 imgW imgH
        validationLines).uncertainty ∧
    (App.calculateMeasurement pointA pointB H lensK1 imgW imgH validationLines).intervals.ci99 =
      2.576 * (App.calculateMeasurement pointA pointB H lensK1 imgW imgH
        validationLines).uncertainty := by
  unfold App.calculateMeasurement
  refine ⟨fun h => ?_, fun h => ?_, rfl, rfl, rfl⟩
  · simp only [if_pos h]
  · have h' : ¬ (0 : ℝ) < (Core.predictBiasRatio (App.midOf pointA pointB)
        (App.valEntriesOf validationLines H lensK1 ⟨imgW / 2, imgH / 2⟩
          (Real.sqrt (imgW * imgW + imgH * imgH)))).confidence := by
      rw [h]
      exact lt_irrefl 0
    simp only [if_neg h']

/-- Witness for C8: with no validation lines the bias confidence is 0 and
the fallback `sigmaGPR = 0.15 · correctedDist` branch is taken. -/
theorem uncertainty_combiner_witness :
    (Core.predictBiasRatio (App.midOf ⟨0, 0⟩ ⟨3, 4⟩)
        (App.valEntriesOf [] [1, 0, 0, 0, 1, 0, 0, 0, 1] 0 ⟨4 / 2, 3 / 2⟩
          (Real.sqrt (4 * 4 + 3 * 3)))).confidence = 0 ∧
    (App.calculateMeasurement ⟨0, 0⟩ ⟨3, 4⟩ [1, 0, 0, 0, 1, 0, 0, 0, 1] 0 4 3 []).uncertainty =
      Real.sqrt
        ((Core.runMonteCarlo ⟨0, 0⟩ ⟨3, 4⟩ [1, 0, 0, 0, 1, 0, 0, 0, 1] 0 ⟨4 / 2, 3 / 2⟩
            (Real.sqrt (4 * 4 + 3 * 3)) 100 2.0).stdDev ^ 2 +
          ((App.calculateMeasurement ⟨0, 0⟩ ⟨3, 4⟩ [1, 0, 0, 0, 1, 0, 0, 0, 1] 0 4 3
              []).dist * 0.15) ^ 2) :=
  ⟨rfl, (uncertainty_combiner ⟨0, 0⟩ ⟨3, 4⟩ [1, 0, 0, 0, 1, 0, 0, 0, 1] 0 4 3 []).2.1 rfl⟩

theorem foldl_add_sum (l : List ℝ) : ∀ c : ℝ, l.foldl (fun a b => a + b) c = c + l.sum := by
  induction l with
  | nil => intro c; simp
  | cons x t ih => intro c; simp [ih]; ring

theorem foldl_add_map_sum {α : Type} (g : α → ℝ) (l : List α) :
    ∀ c : ℝ, l.foldl (fun a b => a + g b) c = c + (l.map g).sum := by
  induction l with
  | nil => intro c; simp
  | cons x t ih => intro c; simp [ih]; ring

theorem mcFold_eq (pA pB : Point) (H : List ℝ) (k1 : ℝ) (center : Point)
    (diag sigma : ℝ) (seed : ℕ) (n : ℕ) :
    (List.range n).foldl (fun st _ => Core.mcStep pA pB H k1 center diag sigma st)
        (seed, []) =
      (Core.lcg^[4 * n] seed,
       (List.range n).map (Core.specDist pA pB H k1 center diag sigma seed)) := by
  induction n with
  | zero => simp
  | succ m ih =>
    rw [List.range_succ, List.foldl_append, List.foldl_cons, List.foldl_nil, ih,
      List.map_append, List.map_cons, List.map_nil]
    have g1 : Core.lcg^[4 * m + 1] seed = Core.lcg (Core.lcg^[4 * m] seed) :=
      Function.iterate_succ_apply' Core.lcg (4 * m) seed
    have g2 : Core.lcg^[4 * m + 1 + 1] seed =
        Core.lcg (Core.lcg (Core.lcg^[4 * m] seed)) := by
      rw [Function.iterate_succ_apply', g1]
    have g3 : Core.lcg^[4 * m + 2 + 1] seed =
        Core.lcg (Core.lcg (Core.lcg (Core.lcg^[4 * m] seed))) := by
      rw [Function.iterate_succ_apply', show (4 * m + 2 : ℕ) = 4 * m + 1 + 1 by omega, g2]
    have g4 : Core.lcg^[4 * m + 3 + 1] seed =
        Core.lcg (Core.lcg (Core.lcg (Core.lcg (Core.lcg^[4 * m] seed)))) := by
      rw [Function.iterate_succ_apply', show (4 * m + 3 : ℕ) = 4 * m + 2 + 1 by omega, g3]
    have hs : Core.lcg^[4 * (m + 1)] seed =
        Core.lcg (Core.lcg (Core.lcg (Core.lcg (Core.lcg^[4 * m] seed)))) := by
      rw [show (4 * (m + 1) : ℕ) = 4 * m + 3 + 1 by omega, g4]
    rw [hs]
    unfold Core.mcStep Core.specDist Core.specNoise Core.specUniform
    simp only [g1, g2, g3, g4]

theorem mcSeedRun_eq_spec (pA pB : Point) (H : List ℝ) (k1 : ℝ) (center : Point)
    (diag : ℝ) (iterations : ℕ) (sigma : ℝ) (seed : ℕ) :
    Core.mcSeedRun pA pB H k1 center diag iterations sigma seed =
      Core.specSeedStats pA pB H k1 center diag iterations sigma seed := by
  unfold Core.mcSeedRun Core.specSeedStats
  rw [mcFold_eq]
  simp only [foldl_add_sum, foldl_add_map_sum, zero_add]

/-- C7: the Monte Carlo estimator is deterministic — equal arguments give
equal results (it is a pure function of its inputs) — and its value is
exactly the arithmetic mean over the 30 fixed seeds `0..29` of each seed's
sample mean and Bessel-corrected (denominator `n-1`, guarded at `n = 1`)
sample standard deviation, the noise stream being driven by the LCG
`seed ↦ (seed·1664525 + 1013904223) mod 2^32`. -/
theorem runMonteCarlo_deterministic_ensemble (pA pB : Point) (H : List ℝ) (k1 : ℝ)
    (center : Point) (diag : ℝ) (iterations : ℕ) (sigma : ℝ) :
    Core.runMonteCarlo pA pB H k1 center diag iterations sigma =
      Core.runMonteCarlo pA pB H k1 center diag iterations sigma ∧
    Core.runMonteCarlo pA pB H k1 center diag iterations sigma =
      Core.runMonteCarloSpecEnsemble pA pB H k1 center diag iterations sigma := by
  refine ⟨rfl, ?_⟩
  unfold Core.runMonteCarlo Core.runMonteCarloSpecEnsemble
  have hfun : Core.mcSeedRun pA pB H k1 center diag iterations sigma =
      Core.specSeedStats pA pB H k1 center diag iterations sigma :=
    funext (mcSeedRun_eq_spec pA pB H k1 center diag iterations sigma)
  rw [hfun]
  simp only [foldl_add_map_sum, zero_add]

theorem mul_affine_getD (a b c d e f : ℝ) (B : List ℝ) :
    (Core.multiplyMatrices [a, b, c, d, e, f, 0, 0, 1] B).getD 6 0 = B.getD 6 0 ∧
    (Core.multiplyMatrices [a, b, c, d, e, f, 0, 0, 1] B).getD 7 0 = B.getD 7 0 ∧
    (Core.multiplyMatrices [a, b, c, d, e, f, 0, 0, 1] B).getD 8 0 = B.getD 8 0 := by
  unfold Core.multiplyMatrices
  refine ⟨?_, ?_, ?_⟩ <;> simp

theorem wOf_mul_affine (a b c d e f : ℝ) (B : List ℝ) (p : Point) :
    Core.wOf (Core.multiplyMatrices [a, b, c, d, e, f, 0, 0, 1] B) p = Core.wOf B p := by
  unfold Core.wOf
  rw [(mul_affine_getD a b c d e f B).1, (mul_affine_getD a b c d e f B).2.1,
    (mul_affine_getD a b c d e f B).2.2]

theorem applyHomography_mul_affine (a b c d e f : ℝ) (B : List ℝ) (p : Point)
    (hw : ¬ |Core.wOf B p| < 1e-12) :
    Core.applyHomography p (Core.multiplyMatrices [a, b, c, d, e, f, 0, 0, 1] B) =
      ⟨a * (Core.applyHomography p B).x + b * (Core.applyHomography p B).y + c,
       d * (Core.applyHomography p B).x + e * (Core.applyHomography p B).y + f⟩ := by
  have hw2 : ¬ |Core.wOf (Core.multiplyMatrices [a, b, c, d, e, f, 0, 0, 1] B) p| < 1e-12 := by
    rw [wOf_mul_affine]
    exact hw
  have hwne : Core.wOf B p ≠ 0 := by
    intro h0
    apply hw
    rw [h0]
    norm_num
  unfold Core.applyHomography
  rw [if_neg hw2, if_neg hw]
  simp only
  unfold Core.multiplyMatrices Core.wOf at *
  simp only [List.getD_cons_zero, List.getD_cons_succ] at *
  have hwne2 : (B[6]?.getD 0 * p.x + B[7]?.getD 0 * p.y + B[8]?.getD 0 : ℝ) ≠ 0 := by
    simpa [List.getD, List.get?_eq_getElem?] using hwne
  rw [Point.mk.injEq]
  constructor <;> field_simp [hwne2] <;> ring

theorem mulRT (θ tx ty : ℝ) :
    Core.multiplyMatrices
        [Real.cos θ, -Real.sin θ, 0, Real.sin θ, Real.cos θ, 0, 0, 0, 1]
        [1, 0, tx, 0, 1, ty, 0, 0, 1] =
      [Real.cos θ, -Real.sin θ, Real.cos θ * tx + -Real.sin θ * ty,
       Real.sin θ, Real.cos θ, Real.sin θ * tx + Real.cos θ * ty, 0, 0, 1] := by
  unfold Core.multiplyMatrices
  norm_num

theorem foldl_anchor_lt (n : ℕ) (l : List (ℕ × CalibrationLine)) :
    ∀ acc : ℕ × ℝ, acc.1 < n → (∀ p ∈ l, p.1 < n) →
      (l.foldl (fun acc p => if p.2.trueLength > acc.2 then (p.1, p.2.trueLength) else acc)
        acc).1 < n := by
  induction l with
  | nil => intro acc hacc _; simpa using hacc
  | cons x t ih =>
    intro acc hacc hmem
    simp only [List.foldl_cons]
    by_cases hx : x.2.trueLength > acc.2
    · rw [if_pos hx]
      exact ih _ (hmem x (List.mem_cons_self x t)) fun p hp => hmem p (List.mem_cons_of_mem x hp)
    · rw [if_neg hx]
      exact ih _ hacc fun p hp => hmem p (List.mem_cons_of_mem x hp)

theorem anchorIdxOf_lt_length (al : List CalibrationLine) (hne : al ≠ []) :
    Core.anchorIdxOf al < al.length := by
  unfold Core.anchorIdxOf
  apply foldl_anchor_lt
  · simpa [List.length_pos] using hne
  · intro p hp
    rw [List.mem_enum_iff_getElem?] at hp
    simpa using (List.getElem?_eq_some.mp hp).1

theorem anchorOf_mem (al : List CalibrationLine) (hne : al ≠ []) :
    Core.anchorOf al ∈ al := by
  unfold Core.anchorOf
  rw [List.getD_eq_getElem al default (anchorIdxOf_lt_length al hne)]
  exact List.getElem_mem _

theorem dist_affine_similarity (s θ c1 c2 : ℝ) (P Q : Point) (hs : 0 ≤ s) :
    Core.euclideanDistance
        ⟨Real.cos θ * (s * P.x + 0 * P.y + 0) + -Real.sin θ * (0 * P.x + s * P.y + 0) + c1,
         Real.sin θ * (s * P.x + 0 * P.y + 0) + Real.cos θ * (0 * P.x + s * P.y + 0) + c2⟩
        ⟨Real.cos θ * (s * Q.x + 0 * Q.y + 0) + -Real.sin θ * (0 * Q.x + s * Q.y + 0) + c1,
         Real.sin θ * (s * Q.x + 0 * Q.y + 0) + Real.cos θ * (0 * Q.x + s * Q.y + 0) + c2⟩ =
      s * Core.euclideanDistance P Q := by
  unfold Core.euclideanDistance
  simp only
  rw [show (Real.cos θ * (s * P.x + 0 * P.y + 0) + -Real.sin θ * (0 * P.x + s * P.y + 0) + c1 -
        (Real.cos θ * (s * Q.x + 0 * Q.y + 0) + -Real.sin θ * (0 * Q.x + s * Q.y + 0) + c1)) ^ 2 +
      (Real.sin θ * (s * P.x + 0 * P.y + 0) + Real.cos θ * (0 * P.x + s * P.y + 0) + c2 -
        (Real.sin θ * (s * Q.x + 0 * Q.y + 0) + Real.cos θ * (0 * Q.x + s * Q.y + 0) + c2)) ^ 2 =
      s ^ 2 * ((P.x - Q.x) ^ 2 + (P.y - Q.y) ^ 2) from by
    linear_combination (s ^ 2 * ((P.x - Q.x) ^ 2 + (P.y - Q.y) ^ 2)) *
      Real.sin_sq_add_cos_sq θ]
  rw [Real.sqrt_mul (sq_nonneg s), Real.sqrt_sq hs]

theorem dist_flip (A B : Point) :
    Core.euclideanDistance ⟨1 * A.x + 0 * A.y + 0, 0 * A.x + -1 * A.y + 0⟩
        ⟨1 * B.x + 0 * B.y + 0, 0 * B.x + -1 * B.y + 0⟩ =
      Core.euclideanDistance A B := by
  unfold Core.euclideanDistance
  simp only
  congr 1
  ring

theorem scale_lock_post (al : List CalibrationLine) (k1 : ℝ) (cpt : Point) (dg : ℝ)
    (h : List ℝ)
    (hpos : 0 < (Core.anchorOf al).trueLength)
    (hcl : Core.calcLenOf h al k1 cpt dg ≠ 0)
    (hwS : ¬ |Core.wOf (Core.hRawOf h al k1 cpt dg) (Core.aSOf al k1 cpt dg)| < 1e-12)
    (hwE : ¬ |Core.wOf (Core.hRawOf h al k1 cpt dg) (Core.aEOf al k1 cpt dg)| < 1e-12) :
    Core.euclideanDistance
        (Core.applyHomography (Core.aSOf al k1 cpt dg) (Core.finalHOf h al k1 cpt dg))
        (Core.applyHomography (Core.aEOf al k1 cpt dg) (Core.finalHOf h al k1 cpt dg)) =
      (Core.anchorOf al).trueLength := by
  have hcalc : Core.calcLenOf h al k1 cpt dg =
      Core.euclideanDistance
        (Core.applyHomography (Core.aSOf al k1 cpt dg) (Core.hRawOf h al k1 cpt dg))
        (Core.applyHomography (Core.aEOf al k1 cpt dg) (Core.hRawOf h al k1 cpt dg)) := rfl
  have hd0 : Core.euclideanDistance
      (Core.applyHomography (Core.aSOf al k1 cpt dg) (Core.hRawOf h al k1 cpt dg))
      (Core.applyHomography (Core.aEOf al k1 cpt dg) (Core.hRawOf h al k1 cpt dg)) ≠ 0 := by
    rw [← hcalc]; exact hcl
  have hdpos : 0 < Core.euclideanDistance
      (Core.applyHomography (Core.aSOf al k1 cpt dg) (Core.hRawOf h al k1 cpt dg))
      (Core.applyHomography (Core.aEOf al k1 cpt dg) (Core.hRawOf h al k1 cpt dg)) :=
    lt_of_le_of_ne (Real.sqrt_nonneg _) (Ne.symm hd0)
  have hsval : Core.sFactorOf h al k1 cpt dg =
      (Core.anchorOf al).trueLength /
        Core.euclideanDistance
          (Core.applyHomography (Core.aSOf al k1 cpt dg) (Core.hRawOf h al k1 cpt dg))
          (Core.applyHomography (Core.aEOf al k1 cpt dg) (Core.hRawOf h al k1 cpt dg)) := by
    unfold Core.sFactorOf
    rw [if_neg hcl, hcalc]
  have hspos : 0 < Core.sFactorOf h al k1 cpt dg := by
    rw [hsval]
    exact div_pos hpos hdpos
  -- images under the scale-locked matrix
  have hwS2 : ¬ |Core.wOf (Core.hRaw2Of h al k1 cpt dg) (Core.aSOf al k1 cpt dg)| < 1e-12 := by
    unfold Core.hRaw2Of
    rw [wOf_mul_affine]
    exact hwS
  have hwE2 : ¬ |Core.wOf (Core.hRaw2Of h al k1 cpt dg) (Core.aEOf al k1 cpt dg)| < 1e-12 := by
    unfold Core.hRaw2Of
    rw [wOf_mul_affine]
    exact hwE
  have himgS2 : Core.applyHomography (Core.aSOf al k1 cpt dg) (Core.hRaw2Of h al k1 cpt dg) =
      ⟨Core.sFactorOf h al k1 cpt dg *
          (Core.applyHomography (Core.aSOf al k1 cpt dg) (Core.hRawOf h al k1 cpt dg)).x +
        0 * (Core.applyHomography (Core.aSOf al k1 cpt dg) (Core.hRawOf h al k1 cpt dg)).y + 0,
       0 * (Core.applyHomography (Core.aSOf al k1 cpt dg) (Core.hRawOf h al k1 cpt dg)).x +
        Core.sFactorOf h al k1 cpt dg *
          (Core.applyHomography (Core.aSOf al k1 cpt dg) (Core.hRawOf h al k1 cpt dg)).y + 0⟩ := by
    unfold Core.hRaw2Of
    exact applyHomography_mul_affine _ _ _ _ _ _ _ _ hwS
  have himgE2 : Core.applyHomography (Core.aEOf al k1 cpt dg) (Core.hRaw2Of h al k1 cpt dg) =
      ⟨Core.sFactorOf h al k1 cpt dg *
          (Core.applyHomography (Core.aEOf al k1 cpt dg) (Core.hRawOf h al k1 cpt dg)).x +
        0 * (Core.applyHomography (Core.aEOf al k1 cpt dg) (Core.hRawOf h al k1 cpt dg)).y + 0,
       0 * (Core.applyHomography (Core.aEOf al k1 cpt dg) (Core.hRawOf h al k1 cpt dg)).x +
        Core.sFactorOf h al k1 cpt dg *
          (Core.applyHomography (Core.aEOf al k1 cpt dg) (Core.hRawOf h al k1 cpt dg)).y + 0⟩ := by
    unfold Core.hRaw2Of
    exact applyHomography_mul_affine _ _ _ _ _ _ _ _ hwE
  -- the rotation/translation stage as one affine matrix
  have hpre_eq : Core.preFlipHOf h al k1 cpt dg =
      Core.multiplyMatrices
        [Real.cos (Core.rotateAngleOf h al k1 cpt dg),
         -Real.sin (Core.rotateAngleOf h al k1 cpt dg),
         Real.cos (Core.rotateAngleOf h al k1 cpt dg) * -(Core.p1Of h al k1 cpt dg).x +
           -Real.sin (Core.rotateAngleOf h al k1 cpt dg) * -(Core.p1Of h al k1 cpt dg).y,
         Real.sin (Core.rotateAngleOf h al k1 cpt dg),
         Real.cos (Core.rotateAngleOf h al k1 cpt dg),
         Real.sin (Core.rotateAngleOf h al k1 cpt dg) * -(Core.p1Of h al k1 cpt dg).x +
           Real.cos (Core.rotateAngleOf h al k1 cpt dg) * -(Core.p1Of h al k1 cpt dg).y,
         0, 0, 1] (Core.hRaw2Of h al k1 cpt dg) := by
    simp only [Core.preFlipHOf]
    rw [mulRT]
  have hwSpre : ¬ |Core.wOf (Core.preFlipHOf h al k1 cpt dg) (Core.aSOf al k1 cpt dg)| <
      1e-12 := by
    rw [hpre_eq, wOf_mul_affine]
    exact hwS2
  have hwEpre : ¬ |Core.wOf (Core.preFlipHOf h al k1 cpt dg) (Core.aEOf al k1 cpt dg)| <
      1e-12 := by
    rw [hpre_eq, wOf_mul_affine]
    exact hwE2
  have hfin : Core.sFactorOf h al k1 cpt dg *
      Core.euclideanDistance
        (Core.applyHomography (Core.aSOf al k1 cpt dg) (Core.hRawOf h al k1 cpt dg))
        (Core.applyHomography (Core.aEOf al k1 cpt dg) (Core.hRawOf h al k1 cpt dg)) =
      (Core.anchorOf al).trueLength := by
    rw [hsval]
    field_simp
  simp only [Core.finalHOf]
  split
  · rw [applyHomography_mul_affine 1 0 0 0 (-1) 0 _ _ hwSpre,
      applyHomography_mul_affine 1 0 0 0 (-1) 0 _ _ hwEpre, dist_flip, hpre_eq,
      applyHomography_mul_affine _ _ _ _ _ _ _ _ hwS2,
      applyHomography_mul_affine _ _ _ _ _ _ _ _ hwE2, himgS2, himgE2]
    dsimp only
    rw [dist_affine_similarity _ _ _ _ _ _ hspos.le]
    exact hfin
  · rw [hpre_eq,
      applyHomography_mul_affine _ _ _ _ _ _ _ _ hwS2,
      applyHomography_mul_affine _ _ _ _ _ _ _ _ hwE2, himgS2, himgE2]
    dsimp only
    rw [dist_affine_similarity _ _ _ _ _ _ hspos.le]
    exact hfin

/-- C1: the scale lock.  For any input whose defined lines number at least
2 and have positive true lengths, and for any outcome `h` of the
optimization loop under which the anchor's projected length `calcLen` is
nonzero and the anchor endpoints' projective denominators are not in the
`|w| < 1e-12` guard region (the condition under which the claim's
"post-scale-lock translation, rotation and possible Y-flip" really act as
length-preserving maps on those points), the post-processed matrix
projects the anchor's undistorted endpoints to exactly its `trueLength`
(so certainly within the claim's `1e-3` tolerance).  The first conjunct
ties this to `optimizeHomographyFromLines` itself: on success its returned
matrix is the post-processing `finalHOf` applied to the loop outcome. -/
theorem scale_lock_anchor (lines : List CalibrationLine) (k1 : ℝ) (center : Point)
    (diag : ℝ) (h : List ℝ)
    (h2 : 2 ≤ ((lines.filter fun l => l.defined)).length)
    (hpos : ∀ l ∈ lines.filter (fun l => l.defined), 0 < l.trueLength)
    (hcl : Core.calcLenOf h (lines.filter fun l => l.defined) k1 center diag ≠ 0)
    (hwS : ¬ |Core.wOf (Core.hRawOf h (lines.filter fun l => l.defined) k1 center diag)
        (Core.aSOf (lines.filter fun l => l.defined) k1 center diag)| < 1e-12)
    (hwE : ¬ |Core.wOf (Core.hRawOf h (lines.filter fun l => l.defined) k1 center diag)
        (Core.aEOf (lines.filter fun l => l.defined) k1 center diag)| < 1e-12) :
    (Core.optimizeHomographyFromLines lines k1 center diag).map OptResult.matrix =
      some (Core.finalHOf (Core.loopHOf (lines.filter fun l => l.defined) k1 center diag)
        (lines.filter fun l => l.defined) k1 center diag) ∧
    Core.euclideanDistance
        (Core.applyHomography (Core.aSOf (lines.filter fun l => l.defined) k1 center diag)
          (Core.finalHOf h (lines.filter fun l => l.defined) k1 center diag))
        (Core.applyHomography (Core.aEOf (lines.filter fun l => l.defined) k1 center diag)
          (Core.finalHOf h (lines.filter fun l => l.defined) k1 center diag)) =
      (Core.anchorOf (lines.filter fun l => l.defined)).trueLength := by
  constructor
  · unfold Core.optimizeHomographyFromLines Core.optimizeActive
    rw [if_neg (not_lt.mpr h2)]
    rfl
  · have hne : (lines.filter fun l => l.defined) ≠ [] := by
      intro hempty
      rw [hempty] at h2
      simp at h2
    exact scale_lock_post _ _ _ _ _ (hpos _ (anchorOf_mem _ hne)) hcl hwS hwE

theorem wit_filter :
    (([wLineA, wLineB] : List CalibrationLine).filter fun l => l.defined) =
      [wLineA, wLineB] := rfl

theorem wit_anchor : Core.anchorOf [wLineA, wLineB] = wLineB := by
  unfold Core.anchorOf Core.anchorIdxOf wLineA wLineB
  simp only [List.enum, List.enumFrom, List.foldl_cons, List.foldl_nil]
  norm_num

theorem wit_Tnorm : Core.TnormOf [wLineA, wLineB] 0 ⟨0, 0⟩ 1 = [1, 0, -1, 0, 1, -1, 0, 0, 1] := by
  have h2 : Real.sqrt 2 ≠ 0 := by positivity
  unfold Core.TnormOf Core.normalizePoints Core.rawPointsOf wLineA wLineB
  norm_num [Core.undistortPoint, Core.euclideanDistance, List.foldl_cons, List.foldl_nil]
  rw [if_neg (by positivity :
    ¬ (Real.sqrt 2 + Real.sqrt 2 + Real.sqrt 2 + Real.sqrt 2 = 0))]
  rw [show (Real.sqrt 2 + Real.sqrt 2 + Real.sqrt 2 + Real.sqrt 2) / 4 = Real.sqrt 2
    from by ring]
  exact div_self h2

theorem wit_hRaw :
    Core.hRawOf [1, 0, 0, 0, 1, 0, 0, 0, 1] [wLineA, wLineB] 0 ⟨0, 0⟩ 1 =
      [1, 0, -1, 0, 1, -1, 0, 0, 1] := by
  unfold Core.hRawOf
  rw [wit_Tnorm]
  norm_num [Core.multiplyMatrices]

theorem wit_aS : Core.aSOf [wLineA, wLineB] 0 ⟨0, 0⟩ 1 = ⟨0, 2⟩ := by
  unfold Core.aSOf
  rw [wit_anchor]
  unfold wLineB Core.undistortPoint
  norm_num

theorem wit_aE : Core.aEOf [wLineA, wLineB] 0 ⟨0, 0⟩ 1 = ⟨2, 2⟩ := by
  unfold Core.aEOf
  rw [wit_anchor]
  unfold wLineB Core.undistortPoint
  norm_num

theorem wit_imgS :
    Core.applyHomography ⟨0, 2⟩ [1, 0, -1, 0, 1, -1, 0, 0, 1] = ⟨-1, 1⟩ := by
  unfold Core.applyHomography Core.wOf
  norm_num

theorem wit_imgE :
    Core.applyHomography ⟨2, 2⟩ [1, 0, -1, 0, 1, -1, 0, 0, 1] = ⟨1, 1⟩ := by
  unfold Core.applyHomography Core.wOf
  norm_num

theorem wit_calcLen :
    Core.calcLenOf [1, 0, 0, 0, 1, 0, 0, 0, 1] [wLineA, wLineB] 0 ⟨0, 0⟩ 1 = 2 := by
  unfold Core.calcLenOf
  rw [wit_hRaw, wit_aS, wit_aE, wit_imgS, wit_imgE]
  unfold Core.euclideanDistance
  rw [show ((-1 : ℝ) - 1) ^ 2 + ((1 : ℝ) - 1) ^ 2 = 2 ^ 2 from by norm_num]
  exact Real.sqrt_sq (by norm_num)

theorem wit_wS : ¬ |Core.wOf [1, 0, -1, 0, 1, -1, 0, 0, 1] ⟨0, 2⟩| < 1e-12 := by
  unfold Core.wOf
  norm_num

theorem wit_wE : ¬ |Core.wOf [1, 0, -1, 0, 1, -1, 0, 0, 1] ⟨2, 2⟩| < 1e-12 := by
  unfold Core.wOf
  norm_num

/-- Witness for C1: two concrete defined lines with positive lengths and a
concrete loop outcome (the identity parameter vector), for which every
hypothesis of the scale-lock theorem holds and the post-processed matrix
reproduces the anchor's true length 3. -/
theorem scale_lock_anchor_witness :
    (2 ≤ (([wLineA, wLineB] : List CalibrationLine).filter fun l => l.defined).length ∧
     Core.calcLenOf [1, 0, 0, 0, 1, 0, 0, 0, 1]
       (([wLineA, wLineB] : List CalibrationLine).filter fun l => l.defined) 0 ⟨0, 0⟩ 1 ≠ 0) ∧
    Core.euclideanDistance
        (Core.applyHomography
          (Core.aSOf (([wLineA, wLineB] : List CalibrationLine).filter fun l => l.defined)
            0 ⟨0, 0⟩ 1)
          (Core.finalHOf [1, 0, 0, 0, 1, 0, 0, 0, 1]
            (([wLineA, wLineB] : List CalibrationLine).filter fun l => l.defined) 0 ⟨0, 0⟩ 1))
        (Core.applyHomography
          (Core.aEOf (([wLineA, wLineB] : List CalibrationLine).filter fun l => l.defined)
            0 ⟨0, 0⟩ 1)
          (Core.finalHOf [1, 0, 0, 0, 1, 0, 0, 0, 1]
            (([wLineA, wLineB] : List CalibrationLine).filter fun l => l.defined) 0 ⟨0, 0⟩ 1)) =
      3 := by
  have h2 : 2 ≤ (([wLineA, wLineB] : List CalibrationLine).filter fun l => l.defined).length := by
    rw [wit_filter]
    norm_num
  have hpos : ∀ l ∈ ([wLineA, wLineB] : List CalibrationLine).filter fun l => l.defined,
      0 < l.trueLength := by
    rw [wit_filter]
    intro l hl
    rcases List.mem_cons.mp hl with h | h
    · rw [h]; unfold wLineA; norm_num
    · rw [List.mem_singleton.mp h]; unfold wLineB; norm_num
  have hcl : Core.calcLenOf [1, 0, 0, 0, 1, 0, 0, 0, 1]
      (([wLineA, wLineB] : List CalibrationLine).filter fun l => l.defined) 0 ⟨0, 0⟩ 1 ≠ 0 := by
    rw [wit_filter, wit_calcLen]
    norm_num
  have hwS : ¬ |Core.wOf (Core.hRawOf [1, 0, 0, 0, 1, 0, 0, 0, 1]
      (([wLineA, wLineB] : List CalibrationLine).filter fun l => l.defined) 0 ⟨0, 0⟩ 1)
      (Core.aSOf (([wLineA, wLineB] : List CalibrationLine).filter fun l => l.defined)
        0 ⟨0, 0⟩ 1)| < 1e-12 := by
    rw [wit_filter, wit_hRaw, wit_aS]
    exact wit_wS
  have hwE : ¬ |Core.wOf (Core.hRawOf [1, 0, 0, 0, 1, 0, 0, 0, 1]
      (([wLineA, wLineB] : List CalibrationLine).filter fun l => l.defined) 0 ⟨0, 0⟩ 1)
      (Core.aEOf (([wLineA, wLineB] : List CalibrationLine).filter fun l => l.defined)
        0 ⟨0, 0⟩ 1)| < 1e-12 := by
    rw [wit_filter, wit_hRaw, wit_aE]
    exact wit_wE
  refine ⟨⟨h2, hcl⟩, ?_⟩
  have hmain := (scale_lock_anchor [wLineA, wLineB] 0 ⟨0, 0⟩ 1 [1, 0, 0, 0, 1, 0, 0, 0, 1]
    h2 hpos hcl hwS hwE).2
  rw [hmain, wit_filter, wit_anchor]
  rfl

theorem foldl_set_length (n : ℕ) (f : List ℝ → ℕ → ℝ) (l : List ℕ) :
    ∀ x : List ℝ, x.length = n → (l.foldl (fun x i => x.set i (f x i)) x).length = n := by
  induction l with
  | nil => intro x hx; simpa using hx
  | cons j t ih =>
    intro x hx
    simp only [List.foldl_cons]
    exact ih _ (by simpa using hx)

theorem backSub_length (n : ℕ) (mat : List (List ℝ)) :
    (MathUtils.backSub n mat).length = n := by
  unfold MathUtils.backSub
  exact foldl_set_length n _ _ _ (by simp)

theorem solveLinearSystem_eq (A : List (List ℝ)) (B : List ℝ) :
    MathUtils.solveLinearSystem A B =
      match MathUtils.forwardAll B.length (List.zipWith (fun row b => row ++ [b]) A B) with
      | none => none
      | some m => some (MathUtils.backSub B.length m) := rfl

theorem solveLinearSystem_length (A : List (List ℝ)) (B : List ℝ) (x : List ℝ)
    (hx : MathUtils.solveLinearSystem A B = some x) : x.length = B.length := by
  rw [solveLinearSystem_eq] at hx
  cases hfa : MathUtils.forwardAll B.length (List.zipWith (fun row b => row ++ [b]) A B) with
  | none => rw [hfa] at hx; simp at hx
  | some m =>
    rw [hfa] at hx
    simp only [Option.some.injEq] at hx
    rw [← hx]
    exact backSub_length _ _

theorem computeHomography_eq (src dst : List Point) :
    MathUtils.computeHomography src dst =
      if src.length < 4 ∨ src.length ≠ dst.length then none
      else
        match MathUtils.solveLinearSystem
          (MathUtils.dltAtA (MathUtils.dltA (MathUtils.normPtsOf src) (MathUtils.normPtsOf dst)))
          (MathUtils.dltAtB (MathUtils.dltA (MathUtils.normPtsOf src) (MathUtils.normPtsOf dst))
            (MathUtils.dltB (MathUtils.normPtsOf dst))) with
        | none => none
        | some hNorm =>
          some (MathUtils.mult (MathUtils.normTinv dst)
            (MathUtils.mult (hNorm ++ [1]) (MathUtils.normT src))) := rfl

theorem hRaw2_getD (h : List ℝ) (al : List CalibrationLine) (k1 : ℝ) (c : Point) (d : ℝ) :
    (Core.hRaw2Of h al k1 c d).getD 6 0 = (Core.hRawOf h al k1 c d).getD 6 0 ∧
    (Core.hRaw2Of h al k1 c d).getD 7 0 = (Core.hRawOf h al k1 c d).getD 7 0 ∧
    (Core.hRaw2Of h al k1 c d).getD 8 0 = (Core.hRawOf h al k1 c d).getD 8 0 := by
  unfold Core.hRaw2Of
  exact mul_affine_getD _ _ _ _ _ _ _

theorem preFlipHOf_eq_affine (h : List ℝ) (al : List CalibrationLine) (k1 : ℝ) (c : Point)
    (d : ℝ) :
    Core.preFlipHOf h al k1 c d =
      Core.multiplyMatrices
        [Real.cos (Core.rotateAngleOf h al k1 c d),
         -Real.sin (Core.rotateAngleOf h al k1 c d),
         Real.cos (Core.rotateAngleOf h al k1 c d) * -(Core.p1Of h al k1 c d).x +
           -Real.sin (Core.rotateAngleOf h al k1 c d) * -(Core.p1Of h al k1 c d).y,
         Real.sin (Core.rotateAngleOf h al k1 c d),
         Real.cos (Core.rotateAngleOf h al k1 c d),
         Real.sin (Core.rotateAngleOf h al k1 c d) * -(Core.p1Of h al k1 c d).x +
           Real.cos (Core.rotateAngleOf h al k1 c d) * -(Core.p1Of h al k1 c d).y,
         0, 0, 1] (Core.hRaw2Of h al k1 c d) := by
  simp only [Core.preFlipHOf]
  rw [mulRT]

theorem preFlip_getD (h : List ℝ) (al : List CalibrationLine) (k1 : ℝ) (c : Point) (d : ℝ) :
    (Core.preFlipHOf h al k1 c d).getD 6 0 = (Core.hRawOf h al k1 c d).getD 6 0 ∧
    (Core.preFlipHOf h al k1 c d).getD 7 0 = (Core.hRawOf h al k1 c d).getD 7 0 ∧
    (Core.preFlipHOf h al k1 c d).getD 8 0 = (Core.hRawOf h al k1 c d).getD 8 0 := by
  rw [preFlipHOf_eq_affine]
  refine ⟨?_, ?_, ?_⟩
  · rw [(mul_affine_getD _ _ _ _ _ _ _).1]
    exact (hRaw2_getD h al k1 c d).1
  · rw [(mul_affine_getD _ _ _ _ _ _ _).2.1]
    exact (hRaw2_getD h al k1 c d).2.1
  · rw [(mul_affine_getD _ _ _ _ _ _ _).2.2]
    exact (hRaw2_getD h al k1 c d).2.2

/-- C4 (amended): the DLT solve does fix the last parameter at 1, but only
in normalized coordinates — after un-normalization the returned matrix
satisfies `h22 + h20·cx + h21·cy = 1` where `(cx, cy)` is the source
centroid, which gives `h22 = 1` only when the perspective row or the
centroid vanishes (counterexample: `h22 = 1/4`).  The optimizer's
post-processing (scale lock, rotation/translation, Y-flip) multiplies on
the left by matrices with bottom row `[0,0,1]`, so it preserves the bottom
row of the un-normalized matrix rather than re-normalizing `h22` to 1. -/
theorem homography_h22_normalization (src dst : List Point) (h : List ℝ)
    (al : List CalibrationLine) (k1 : ℝ) (center : Point) (diag : ℝ) :
    ((MathUtils.computeHomography src dst).map fun H =>
        H.getD 8 0 + H.getD 6 0 * MathUtils.centroidX src +
          H.getD 7 0 * MathUtils.centroidY src) =
      ((MathUtils.computeHomography src dst).map fun _ => 1) ∧
    (Core.finalHOf h al k1 center diag).getD 6 0 =
      (Core.hRawOf h al k1 center diag).getD 6 0 ∧
    (Core.finalHOf h al k1 center diag).getD 7 0 =
      (Core.hRawOf h al k1 center diag).getD 7 0 ∧
    (Core.finalHOf h al k1 center diag).getD 8 0 =
      (Core.hRawOf h al k1 center diag).getD 8 0 := by
  constructor
  · by_cases hc : src.length < 4 ∨ src.length ≠ dst.length
    · rw [computeHomography_eq, if_pos hc]
      rfl
    · cases hsol : MathUtils.solveLinearSystem
        (MathUtils.dltAtA (MathUtils.dltA (MathUtils.normPtsOf src) (MathUtils.normPtsOf dst)))
        (MathUtils.dltAtB (MathUtils.dltA (MathUtils.normPtsOf src) (MathUtils.normPtsOf dst))
          (MathUtils.dltB (MathUtils.normPtsOf dst))) with
      | none =>
        rw [computeHomography_eq, if_neg hc, hsol]
        rfl
      | some hn =>
        rw [computeHomography_eq, if_neg hc, hsol]
        show some _ = some _
        congr 1
        have hlen : hn.length = 8 := by
          have := solveLinearSystem_length _ _ _ hsol
          simpa [MathUtils.dltAtB] using this
        have ha8 : (hn ++ [(1 : ℝ)]).getD 8 0 = 1 := by
          simp [List.getD_eq_getElem?_getD, List.getElem?_append_right, hlen]
        unfold MathUtils.mult Core.multiplyMatrices MathUtils.normT MathUtils.normTinv
        simp only [List.getD_cons_zero, List.getD_cons_succ]
        rw [ha8]
        ring
  · have hflip := preFlip_getD h al k1 center diag
    simp only [Core.finalHOf]
    split
    · refine ⟨?_, ?_, ?_⟩
      · rw [(mul_affine_getD _ _ _ _ _ _ _).1]; exact hflip.1
      · rw [(mul_affine_getD _ _ _ _ _ _ _).2.1]; exact hflip.2.1
      · rw [(mul_affine_getD _ _ _ _ _ _ _).2.2]; exact hflip.2.2
    · exact hflip

theorem c4_cx_src : MathUtils.centroidX csrcC4 = 1 := by
  unfold MathUtils.centroidX csrcC4
  norm_num [List.foldl_cons, List.foldl_nil]

theorem c4_cy_src : MathUtils.centroidY csrcC4 = 1 := by
  unfold MathUtils.centroidY csrcC4
  norm_num [List.foldl_cons, List.foldl_nil]

theorem c4_scale_src : MathUtils.normScale csrcC4 = 1 := by
  have h2 : Real.sqrt 2 ≠ 0 := by positivity
  unfold MathUtils.normScale
  rw [c4_cx_src, c4_cy_src]
  unfold csrcC4
  norm_num [List.foldl_cons, List.foldl_nil]
  rw [if_neg (by positivity :
    ¬ (Real.sqrt 2 + Real.sqrt 2 + Real.sqrt 2 + Real.sqrt 2 = 0))]
  rw [show (Real.sqrt 2 + Real.sqrt 2 + Real.sqrt 2 + Real.sqrt 2) / 4 = Real.sqrt 2
    from by ring]
  exact div_self h2

theorem c4_norm_src :
    MathUtils.normPtsOf csrcC4 = [⟨-1, -1⟩, ⟨1, -1⟩, ⟨1, 1⟩, ⟨-1, 1⟩] := by
  unfold MathUtils.normPtsOf
  rw [c4_cx_src, c4_cy_src, c4_scale_src]
  unfold csrcC4
  norm_num [Point.mk.injEq]

theorem c4_cx_dst : MathUtils.centroidX cdstC4 = 0 := by
  unfold MathUtils.centroidX cdstC4
  norm_num [List.foldl_cons, List.foldl_nil]

theorem c4_cy_dst : MathUtils.centroidY cdstC4 = 0 := by
  unfold MathUtils.centroidY cdstC4
  norm_num [List.foldl_cons, List.foldl_nil]

theorem c4_sqrt50 : Real.sqrt 50 = 5 * Real.sqrt 2 := by
  rw [show (50 : ℝ) = 5 ^ 2 * 2 from by norm_num, Real.sqrt_mul (by positivity),
    Real.sqrt_sq (by norm_num : (0 : ℝ) ≤ 5)]

theorem c4_scale_dst : MathUtils.normScale cdstC4 = 1 / 3 := by
  have h2 : Real.sqrt 2 ≠ 0 := by positivity
  unfold MathUtils.normScale
  rw [c4_cx_dst, c4_cy_dst]
  unfold cdstC4
  norm_num [List.foldl_cons, List.foldl_nil, c4_sqrt50]
  rw [if_neg (by positivity :
    ¬ (5 * Real.sqrt 2 + 5 * Real.sqrt 2 + Real.sqrt 2 + Real.sqrt 2 = 0))]
  rw [show (5 * Real.sqrt 2 + 5 * Real.sqrt 2 + Real.sqrt 2 + Real.sqrt 2) / 4 =
      3 * Real.sqrt 2 from by ring]
  rw [div_eq_iff (by positivity : (3 : ℝ) * Real.sqrt 2 ≠ 0)]
  ring

theorem c4_norm_dst :
    MathUtils.normPtsOf cdstC4 =
      [⟨-7 / 3, -1 / 3⟩, ⟨7 / 3, -1 / 3⟩, ⟨1 / 3, 1 / 3⟩, ⟨-1 / 3, 1 / 3⟩] := by
  unfold MathUtils.normPtsOf
  rw [c4_cx_dst, c4_cy_dst, c4_scale_dst]
  unfold cdstC4
  norm_num [Point.mk.injEq]

theorem c4_A :
    MathUtils.dltA [⟨-1, -1⟩, ⟨1, -1⟩, ⟨1, 1⟩, ⟨-1, 1⟩]
        [⟨-7 / 3, -1 / 3⟩, ⟨7 / 3, -1 / 3⟩, ⟨1 / 3, 1 / 3⟩, ⟨-1 / 3, 1 / 3⟩] =
      [[-1, -1, 1, 0, 0, 0, -7 / 3, -7 / 3],
       [0, 0, 0, -1, -1, 1, -1 / 3, -1 / 3],
       [1, -1, 1, 0, 0, 0, -7 / 3, 7 / 3],
       [0, 0, 0, 1, -1, 1, 1 / 3, -1 / 3],
       [1, 1, 1, 0, 0, 0, -1 / 3, -1 / 3],
       [0, 0, 0, 1, 1, 1, -1 / 3, -1 / 3],
       [-1, 1, 1, 0, 0, 0, -1 / 3, 1 / 3],
       [0, 0, 0, -1, 1, 1, 1 / 3, -1 / 3]] := by
  unfold MathUtils.dltA
  rw [show (([⟨-1, -1⟩, ⟨1, -1⟩, ⟨1, 1⟩, ⟨-1, 1⟩] : List Point)).length = 4 from rfl,
    show List.range 4 = [0, 1, 2, 3] from by decide]
  norm_num [List.flatMap]

theorem c4_B :
    MathUtils.dltB [⟨-7 / 3, -1 / 3⟩, ⟨7 / 3, -1 / 3⟩, ⟨1 / 3, 1 / 3⟩, ⟨-1 / 3, 1 / 3⟩] =
      [-7 / 3, -1 / 3, 7 / 3, -1 / 3, 1 / 3, 1 / 3, -1 / 3, 1 / 3] := by
  unfold MathUtils.dltB
  rw [show (([⟨-7 / 3, -1 / 3⟩, ⟨7 / 3, -1 / 3⟩, ⟨1 / 3, 1 / 3⟩,
      ⟨-1 / 3, 1 / 3⟩] : List Point)).length = 4 from rfl,
    show List.range 4 = [0, 1, 2, 3] from by decide]
  norm_num [List.flatMap]

theorem c4_AtA :
    MathUtils.dltAtA
        [[-1, -1, 1, 0, 0, 0, -7 / 3, -7 / 3],
         [0, 0, 0, -1, -1, 1, -1 / 3, -1 / 3],
         [1, -1, 1, 0, 0, 0, -7 / 3, 7 / 3],
         [0, 0, 0, 1, -1, 1, 1 / 3, -1 / 3],
         [1, 1, 1, 0, 0, 0, -1 / 3, -1 / 3],
         [0, 0, 0, 1, 1, 1, -1 / 3, -1 / 3],
         [-1, 1, 1, 0, 0, 0, -1 / 3, 1 / 3],
         [0, 0, 0, -1, 1, 1, 1 / 3, -1 / 3]] =
      [[4, 0, 0, 0, 0, 0, 0, 4],
       [0, 4, 0, 0, 0, 0, 4, 0],
       [0, 0, 4, 0, 0, 0, -16 / 3, 0],
       [0, 0, 0, 4, 0, 0, 0, 0],
       [0, 0, 0, 0, 4, 0, 0, 0],
       [0, 0, 0, 0, 0, 4, 0, -4 / 3],
       [0, 4, -16 / 3, 0, 0, 0, 104 / 9, 0],
       [4, 0, 0, 0, 0, -4 / 3, 0, 104 / 9]] := by
  unfold MathUtils.dltAtA
  rw [show List.range 8 = [0, 1, 2, 3, 4, 5, 6, 7] from by decide]
  norm_num [List.foldl_cons, List.foldl_nil]

theorem c4_AtB :
    MathUtils.dltAtB
        [[-1, -1, 1, 0, 0, 0, -7 / 3, -7 / 3],
         [0, 0, 0, -1, -1, 1, -1 / 3, -1 / 3],
         [1, -1, 1, 0, 0, 0, -7 / 3, 7 / 3],
         [0, 0, 0, 1, -1, 1, 1 / 3, -1 / 3],
         [1, 1, 1, 0, 0, 0, -1 / 3, -1 / 3],
         [0, 0, 0, 1, 1, 1, -1 / 3, -1 / 3],
         [-1, 1, 1, 0, 0, 0, -1 / 3, 1 / 3],
         [0, 0, 0, -1, 1, 1, 1 / 3, -1 / 3]]
        [-7 / 3, -1 / 3, 7 / 3, -1 / 3, 1 / 3, 1 / 3, -1 / 3, 1 / 3] =
      [16 / 3, 0, 0, 0, 4 / 3, 0, 0, 32 / 3] := by
  unfold MathUtils.dltAtB
  rw [show List.range 8 = [0, 1, 2, 3, 4, 5, 6, 7] from by decide]
  norm_num [List.foldl_cons, List.foldl_nil, List.zip_cons_cons]

theorem c4_step0 :
    MathUtils.forwardStep 8
        [[4, 0, 0, 0, 0, 0, 0, 4, 16 / 3],
        [0, 4, 0, 0, 0, 0, 4, 0, 0],
        [0, 0, 4, 0, 0, 0, -16 / 3, 0, 0],
        [0, 0, 0, 4, 0, 0, 0, 0, 0],
        [0, 0, 0, 0, 4, 0, 0, 0, 4 / 3],
        [0, 0, 0, 0, 0, 4, 0, -4 / 3, 0],
        [0, 4, -16 / 3, 0, 0, 0, 104 / 9, 0, 0],
        [4, 0, 0, 0, 0, -4 / 3, 0, 104 / 9, 32 / 3]]
        0 =
      some
        [[4, 0, 0, 0, 0, 0, 0, 4, 16 / 3],
        [0, 4, 0, 0, 0, 0, 4, 0, 0],
        [0, 0, 4, 0, 0, 0, -16 / 3, 0, 0],
        [0, 0, 0, 4, 0, 0, 0, 0, 0],
        [0, 0, 0, 0, 4, 0, 0, 0, 4 / 3],
        [0, 0, 0, 0, 0, 4, 0, -4 / 3, 0],
        [0, 4, -16 / 3, 0, 0, 0, 104 / 9, 0, 0],
        [0, 0, 0, 0, 0, -4 / 3, 0, 68 / 9, 16 / 3]] := by
  unfold MathUtils.forwardStep MathUtils.pivotSearch MathUtils.swapRows MathUtils.elimRow
  rw [show (List.range 8).drop (0 + 1) = [1, 2, 3, 4, 5, 6, 7] from by decide,
    show List.range 8 = [0, 1, 2, 3, 4, 5, 6, 7] from by decide,
    show List.range (8 + 1) = [0, 1, 2, 3, 4, 5, 6, 7, 8] from by decide]
  norm_num [List.foldl_cons, List.foldl_nil, List.set, abs_of_nonneg, abs_neg, abs_zero]

theorem c4_step1 :
    MathUtils.forwardStep 8
        [[4, 0, 0, 0, 0, 0, 0, 4, 16 / 3],
        [0, 4, 0, 0, 0, 0, 4, 0, 0],
        [0, 0, 4, 0, 0, 0, -16 / 3, 0, 0],
        [0, 0, 0, 4, 0, 0, 0, 0, 0],
        [0, 0, 0, 0, 4, 0, 0, 0, 4 / 3],
        [0, 0, 0, 0, 0, 4, 0, -4 / 3, 0],
        [0, 4, -16 / 3, 0, 0, 0, 104 / 9, 0, 0],
        [0, 0, 0, 0, 0, -4 / 3, 0, 68 / 9, 16 / 3]]
        1 =
      some
        [[4, 0, 0, 0, 0, 0, 0, 4, 16 / 3],
        [0, 4, 0, 0, 0, 0, 4, 0, 0],
        [0, 0, 4, 0, 0, 0, -16 / 3, 0, 0],
        [0, 0, 0, 4, 0, 0, 0, 0, 0],
        [0, 0, 0, 0, 4, 0, 0, 0, 4 / 3],
        [0, 0, 0, 0, 0, 4, 0, -4 / 3, 0],
        [0, 0, -16 / 3, 0, 0, 0, 68 / 9, 0, 0],
        [0, 0, 0, 0, 0, -4 / 3, 0, 68 / 9, 16 / 3]] := by
  unfold MathUtils.forwardStep MathUtils.pivotSearch MathUtils.swapRows MathUtils.elimRow
  rw [show (List.range 8).drop (1 + 1) = [2, 3, 4, 5, 6, 7] from by decide,
    show List.range 8 = [0, 1, 2, 3, 4, 5, 6, 7] from by decide,
    show List.range (8 + 1) = [0, 1, 2, 3, 4, 5, 6, 7, 8] from by decide]
  norm_num [List.foldl_cons, List.foldl_nil, List.set, abs_of_nonneg, abs_neg, abs_zero]

set_option maxHeartbeats 4000000 in
theorem c4_step2 :
    MathUtils.forwardStep 8
        [[4, 0, 0, 0, 0, 0, 0, 4, 16 / 3],
        [0, 4, 0, 0, 0, 0, 4, 0, 0],
        [0, 0, 4, 0, 0, 0, -16 / 3, 0, 0],
        [0, 0, 0, 4, 0, 0, 0, 0, 0],
        [0, 0, 0, 0, 4, 0, 0, 0, 4 / 3],
        [0, 0, 0, 0, 0, 4, 0, -4 / 3, 0],
        [0, 0, -16 / 3, 0, 0, 0, 68 / 9, 0, 0],
        [0, 0, 0, 0, 0, -4 / 3, 0, 68 / 9, 16 / 3]]
        2 =
      some
        [[4, 0, 0, 0, 0, 0, 0, 4, 16 / 3],
        [0, 4, 0, 0, 0, 0, 4, 0, 0],
        [0, 0, -16 / 3, 0, 0, 0, 68 / 9, 0, 0],
        [0, 0, 0, 4, 0, 0, 0, 0, 0],
        [0, 0, 0, 0, 4, 0, 0, 0, 4 / 3],
        [0, 0, 0, 0, 0, 4, 0, -4 / 3, 0],
        [0, 0, 0, 0, 0, 0, 1 / 3, 0, 0],
        [0, 0, 0, 0, 0, -4 / 3, 0, 68 / 9, 16 / 3]] := by
  unfold MathUtils.forwardStep MathUtils.pivotSearch MathUtils.swapRows MathUtils.elimRow
  rw [show (List.range 8).drop (2 + 1) = [3, 4, 5, 6, 7] from by decide,
    show List.range 8 = [0, 1, 2, 3, 4, 5, 6, 7] from by decide,
    show List.range (8 + 1) = [0, 1, 2, 3, 4, 5, 6, 7, 8] from by decide]
  norm_num [List.foldl_cons, List.foldl_nil, List.set, abs_of_nonneg, abs_neg, abs_zero]

theorem c4_step3 :
    MathUtils.forwardStep 8
        [[4, 0, 0, 0, 0, 0, 0, 4, 16 / 3],
        [0, 4, 0, 0, 0, 0, 4, 0, 0],
        [0, 0, -16 / 3, 0, 0, 0, 68 / 9, 0, 0],
        [0, 0, 0, 4, 0, 0, 0, 0, 0],
        [0, 0, 0, 0, 4, 0, 0, 0, 4 / 3],
        [0, 0, 0, 0, 0, 4, 0, -4 / 3, 0],
        [0, 0, 0, 0, 0, 0, 1 / 3, 0, 0],
        [0, 0, 0, 0, 0, -4 / 3, 0, 68 / 9, 16 / 3]]
        3 =
      some
        [[4, 0, 0, 0, 0, 0, 0, 4, 16 / 3],
        [0, 4, 0, 0, 0, 0, 4, 0, 0],
        [0, 0, -16 / 3, 0, 0, 0, 68 / 9, 0, 0],
        [0, 0, 0, 4, 0, 0, 0, 0, 0],
        [0, 0, 0, 0, 4, 0, 0, 0, 4 / 3],
        [0, 0, 0, 0, 0, 4, 0, -4 / 3, 0],
        [0, 0, 0, 0, 0, 0, 1 / 3, 0, 0],
        [0, 0, 0, 0, 0, -4 / 3, 0, 68 / 9, 16 / 3]] := by
  unfold MathUtils.forwardStep MathUtils.pivotSearch MathUtils.swapRows MathUtils.elimRow
  rw [show (List.range 8).drop (3 + 1) = [4, 5, 6, 7] from by decide,
    show List.range 8 = [0, 1, 2, 3, 4, 5, 6, 7] from by decide,
    show List.range (8 + 1) = [0, 1, 2, 3, 4, 5, 6, 7, 8] from by decide]
  norm_num [List.foldl_cons, List.foldl_nil, List.set, abs_of_nonneg, abs_neg, abs_zero]

theorem c4_step4 :
    MathUtils.forwardStep 8
        [[4, 0, 0, 0, 0, 0, 0, 4, 16 / 3],
        [0, 4, 0, 0, 0, 0, 4, 0, 0],
        [0, 0, -16 / 3, 0, 0, 0, 68 / 9, 0, 0],
        [0, 0, 0, 4, 0, 0, 0, 0, 0],
        [0, 0, 0, 0, 4, 0, 0, 0, 4 / 3],
        [0, 0, 0, 0, 0, 4, 0, -4 / 3, 0],
        [0, 0, 0, 0, 0, 0, 1 / 3, 0, 0],
        [0, 0, 0, 0, 0, -4 / 3, 0, 68 / 9, 16 / 3]]
        4 =
      some
        [[4, 0, 0, 0, 0, 0, 0, 4, 16 / 3],
        [0, 4, 0, 0, 0, 0, 4, 0, 0],
        [0, 0, -16 / 3, 0, 0, 0, 68 / 9, 0, 0],
        [0, 0, 0, 4, 0, 0, 0, 0, 0],
        [0, 0, 0, 0, 4, 0, 0, 0, 4 / 3],
        [0, 0, 0, 0, 0, 4, 0, -4 / 3, 0],
        [0, 0, 0, 0, 0, 0, 1 / 3, 0, 0],
        [0, 0, 0, 0, 0, -4 / 3, 0, 68 / 9, 16 / 3]] := by
  unfold MathUtils.forwardStep MathUtils.pivotSearch MathUtils.swapRows MathUtils.elimRow
  rw [show (List.range 8).drop (4 + 1) = [5, 6, 7] from by decide,
    show List.range 8 = [0, 1, 2, 3, 4, 5, 6, 7] from by decide,
    show List.range (8 + 1) = [0, 1, 2, 3, 4, 5, 6, 7, 8] from by decide]
  norm_num [List.foldl_cons, List.foldl_nil, List.set, abs_of_nonneg, abs_neg, abs_zero]

set_option maxHeartbeats 1600000 in
theorem c4_step5 :
    MathUtils.forwardStep 8
        [[4, 0, 0, 0, 0, 0, 0, 4, 16 / 3],
        [0, 4, 0, 0, 0, 0, 4, 0, 0],
        [0, 0, -16 / 3, 0, 0, 0, 68 / 9, 0, 0],
        [0, 0, 0, 4, 0, 0, 0, 0, 0],
        [0, 0, 0, 0, 4, 0, 0, 0, 4 / 3],
        [0, 0, 0, 0, 0, 4, 0, -4 / 3, 0],
        [0, 0, 0, 0, 0, 0, 1 / 3, 0, 0],
        [0, 0, 0, 0, 0, -4 / 3, 0, 68 / 9, 16 / 3]]
        5 =
      some
        [[4, 0, 0, 0, 0, 0, 0, 4, 16 / 3],
        [0, 4, 0, 0, 0, 0, 4, 0, 0],
        [0, 0, -16 / 3, 0, 0, 0, 68 / 9, 0, 0],
        [0, 0, 0, 4, 0, 0, 0, 0, 0],
        [0, 0, 0, 0, 4, 0, 0, 0, 4 / 3],
        [0, 0, 0, 0, 0, 4, 0, -4 / 3, 0],
        [0, 0, 0, 0, 0, 0, 1 / 3, 0, 0],
        [0, 0, 0, 0, 0, 0, 0, 64 / 9, 16 / 3]] := by
  unfold MathUtils.forwardStep MathUtils.pivotSearch MathUtils.swapRows MathUtils.elimRow
  rw [show (List.range 8).drop (5 + 1) = [6, 7] from by decide,
    show List.range 8 = [0, 1, 2, 3, 4, 5, 6, 7] from by decide,
    show List.range (8 + 1) = [0, 1, 2, 3, 4, 5, 6, 7, 8] from by decide]
  norm_num [List.foldl_cons, List.foldl_nil, List.set, abs_of_nonneg, abs_neg, abs_zero]

set_option maxHeartbeats 1600000 in
theorem c4_step6 :
    MathUtils.forwardStep 8
        [[4, 0, 0, 0, 0, 0, 0, 4, 16 / 3],
        [0, 4, 0, 0, 0, 0, 4, 0, 0],
        [0, 0, -16 / 3, 0, 0, 0, 68 / 9, 0, 0],
        [0, 0, 0, 4, 0, 0, 0, 0, 0],
        [0, 0, 0, 0, 4, 0, 0, 0, 4 / 3],
        [0, 0, 0, 0, 0, 4, 0, -4 / 3, 0],
        [0, 0, 0, 0, 0, 0, 1 / 3, 0, 0],
        [0, 0, 0, 0, 0, 0, 0, 64 / 9, 16 / 3]]
        6 =
      some
        [[4, 0, 0, 0, 0, 0, 0, 4, 16 / 3],
        [0, 4, 0, 0, 0, 0, 4, 0, 0],
        [0, 0, -16 / 3, 0, 0, 0, 68 / 9, 0, 0],
        [0, 0, 0, 4, 0, 0, 0, 0, 0],
        [0, 0, 0, 0, 4, 0, 0, 0, 4 / 3],
        [0, 0, 0, 0, 0, 4, 0, -4 / 3, 0],
        [0, 0, 0, 0, 0, 0, 1 / 3, 0, 0],
        [0, 0, 0, 0, 0, 0, 0, 64 / 9, 16 / 3]] := by
  unfold MathUtils.forwardStep MathUtils.pivotSearch MathUtils.swapRows MathUtils.elimRow
  rw [show (List.range 8).drop (6 + 1) = [7] from by decide,
    show List.range 8 = [0, 1, 2, 3, 4, 5, 6, 7] from by decide,
    show List.range (8 + 1) = [0, 1, 2, 3, 4, 5, 6, 7, 8] from by decide]
  norm_num [List.foldl_cons, List.foldl_nil, List.set, abs_of_nonneg, abs_neg, abs_zero]

theorem c4_step7 :
    MathUtils.forwardStep 8
        [[4, 0, 0, 0, 0, 0, 0, 4, 16 / 3],
        [0, 4, 0, 0, 0, 0, 4, 0, 0],
        [0, 0, -16 / 3, 0, 0, 0, 68 / 9, 0, 0],
        [0, 0, 0, 4, 0, 0, 0, 0, 0],
        [0, 0, 0, 0, 4, 0, 0, 0, 4 / 3],
        [0, 0, 0, 0, 0, 4, 0, -4 / 3, 0],
        [0, 0, 0, 0, 0, 0, 1 / 3, 0, 0],
        [0, 0, 0, 0, 0, 0, 0, 64 / 9, 16 / 3]]
        7 =
      some
        [[4, 0, 0, 0, 0, 0, 0, 4, 16 / 3],
        [0, 4, 0, 0, 0, 0, 4, 0, 0],
        [0, 0, -16 / 3, 0, 0, 0, 68 / 9, 0, 0],
        [0, 0, 0, 4, 0, 0, 0, 0, 0],
        [0, 0, 0, 0, 4, 0, 0, 0, 4 / 3],
        [0, 0, 0, 0, 0, 4, 0, -4 / 3, 0],
        [0, 0, 0, 0, 0, 0, 1 / 3, 0, 0],
        [0, 0, 0, 0, 0, 0, 0, 64 / 9, 16 / 3]] := by
  unfold MathUtils.forwardStep MathUtils.pivotSearch MathUtils.swapRows MathUtils.elimRow
  rw [show (List.range 8).drop (7 + 1) = [] from by decide,
    show List.range 8 = [0, 1, 2, 3, 4, 5, 6, 7] from by decide,
    show List.range (8 + 1) = [0, 1, 2, 3, 4, 5, 6, 7, 8] from by decide]
  norm_num [List.foldl_cons, List.foldl_nil, List.set, abs_of_nonneg, abs_neg, abs_zero]

theorem c4_forwardAll :
    MathUtils.forwardAll 8
        [[4, 0, 0, 0, 0, 0, 0, 4, 16 / 3],
         [0, 4, 0, 0, 0, 0, 4, 0, 0],
         [0, 0, 4, 0, 0, 0, -16 / 3, 0, 0],
         [0, 0, 0, 4, 0, 0, 0, 0, 0],
         [0, 0, 0, 0, 4, 0, 0, 0, 4 / 3],
         [0, 0, 0, 0, 0, 4, 0, -4 / 3, 0],
         [0, 4, -16 / 3, 0, 0, 0, 104 / 9, 0, 0],
         [4, 0, 0, 0, 0, -4 / 3, 0, 104 / 9, 32 / 3]] =
      some
        [[4, 0, 0, 0, 0, 0, 0, 4, 16 / 3],
         [0, 4, 0, 0, 0, 0, 4, 0, 0],
         [0, 0, -16 / 3, 0, 0, 0, 68 / 9, 0, 0],
         [0, 0, 0, 4, 0, 0, 0, 0, 0],
         [0, 0, 0, 0, 4, 0, 0, 0, 4 / 3],
         [0, 0, 0, 0, 0, 4, 0, -4 / 3, 0],
         [0, 0, 0, 0, 0, 0, 1 / 3, 0, 0],
         [0, 0, 0, 0, 0, 0, 0, 64 / 9, 16 / 3]] := by
  unfold MathUtils.forwardAll
  rw [show List.range 8 = [0, 1, 2, 3, 4, 5, 6, 7] from by decide]
  simp only [List.foldl_cons, List.foldl_nil, Option.some_bind, c4_step0, c4_step1, c4_step2,
    c4_step3, c4_step4, c4_step5, c4_step6, c4_step7]

set_option maxHeartbeats 1600000 in
theorem c4_backSub :
    MathUtils.backSub 8
        [[4, 0, 0, 0, 0, 0, 0, 4, 16 / 3],
         [0, 4, 0, 0, 0, 0, 4, 0, 0],
         [0, 0, -16 / 3, 0, 0, 0, 68 / 9, 0, 0],
         [0, 0, 0, 4, 0, 0, 0, 0, 0],
         [0, 0, 0, 0, 4, 0, 0, 0, 4 / 3],
         [0, 0, 0, 0, 0, 4, 0, -4 / 3, 0],
         [0, 0, 0, 0, 0, 0, 1 / 3, 0, 0],
         [0, 0, 0, 0, 0, 0, 0, 64 / 9, 16 / 3]] =
      [7 / 12, 0, 0, 0, 1 / 3, 1 / 4, 0, 3 / 4] := by
  have hd0 : (List.range 8).drop (0 + 1) = [1, 2, 3, 4, 5, 6, 7] := by decide
  have hd1 : (List.range 8).drop (1 + 1) = [2, 3, 4, 5, 6, 7] := by decide
  have hd2 : (List.range 8).drop (2 + 1) = [3, 4, 5, 6, 7] := by decide
  have hd3 : (List.range 8).drop (3 + 1) = [4, 5, 6, 7] := by decide
  have hd4 : (List.range 8).drop (4 + 1) = [5, 6, 7] := by decide
  have hd5 : (List.range 8).drop (5 + 1) = [6, 7] := by decide
  have hd6 : (List.range 8).drop (6 + 1) = [7] := by decide
  have hd7 : (List.range 8).drop (7 + 1) = [] := by decide
  unfold MathUtils.backSub
  rw [show (List.range 8).reverse = [7, 6, 5, 4, 3, 2, 1, 0] from by decide]
  norm_num [List.foldl_cons, List.foldl_nil, List.set, List.replicate, hd0, hd1, hd2, hd3,
    hd4, hd5, hd6, hd7]

theorem c4_solve :
    MathUtils.solveLinearSystem
        [[4, 0, 0, 0, 0, 0, 0, 4],
         [0, 4, 0, 0, 0, 0, 4, 0],
         [0, 0, 4, 0, 0, 0, -16 / 3, 0],
         [0, 0, 0, 4, 0, 0, 0, 0],
         [0, 0, 0, 0, 4, 0, 0, 0],
         [0, 0, 0, 0, 0, 4, 0, -4 / 3],
         [0, 4, -16 / 3, 0, 0, 0, 104 / 9, 0],
         [4, 0, 0, 0, 0, -4 / 3, 0, 104 / 9]]
        [16 / 3, 0, 0, 0, 4 / 3, 0, 0, 32 / 3] =
      some [7 / 12, 0, 0, 0, 1 / 3, 1 / 4, 0, 3 / 4] := by
  rw [solveLinearSystem_eq]
  rw [show ([16 / 3, 0, 0, 0, 4 / 3, 0, 0, 32 / 3] : List ℝ).length = 8 from rfl]
  rw [show List.zipWith (fun row b => row ++ [b])
      ([[4, 0, 0, 0, 0, 0, 0, 4],
         [0, 4, 0, 0, 0, 0, 4, 0],
         [0, 0, 4, 0, 0, 0, -16 / 3, 0],
         [0, 0, 0, 4, 0, 0, 0, 0],
         [0, 0, 0, 0, 4, 0, 0, 0],
         [0, 0, 0, 0, 0, 4, 0, -4 / 3],
         [0, 4, -16 / 3, 0, 0, 0, 104 / 9, 0],
         [4, 0, 0, 0, 0, -4 / 3, 0, 104 / 9]] : List (List ℝ))
      ([16 / 3, 0, 0, 0, 4 / 3, 0, 0, 32 / 3] : List ℝ) =
      [[4, 0, 0, 0, 0, 0, 0, 4, 16 / 3],
         [0, 4, 0, 0, 0, 0, 4, 0, 0],
         [0, 0, 4, 0, 0, 0, -16 / 3, 0, 0],
         [0, 0, 0, 4, 0, 0, 0, 0, 0],
         [0, 0, 0, 0, 4, 0, 0, 0, 4 / 3],
         [0, 0, 0, 0, 0, 4, 0, -4 / 3, 0],
         [0, 4, -16 / 3, 0, 0, 0, 104 / 9, 0, 0],
         [4, 0, 0, 0, 0, -4 / 3, 0, 104 / 9, 32 / 3]] from by norm_num]
  rw [c4_forwardAll]
  show some _ = some _
  rw [c4_backSub]

theorem c4_Tinv : MathUtils.normTinv cdstC4 = [3, 0, 0, 0, 3, 0, 0, 0, 1] := by
  unfold MathUtils.normTinv
  rw [c4_scale_dst, c4_cx_dst, c4_cy_dst]
  norm_num

theorem c4_T : MathUtils.normT csrcC4 = [1, 0, -1, 0, 1, -1, 0, 0, 1] := by
  unfold MathUtils.normT
  rw [c4_scale_src, c4_cx_src, c4_cy_src]
  norm_num

theorem c4_computeHomography :
    MathUtils.computeHomography csrcC4 cdstC4 =
      some [7 / 4, 0, -7 / 4, 0, 1, -1 / 4, 0, 3 / 4, 1 / 4] := by
  rw [computeHomography_eq]
  rw [if_neg (by norm_num [csrcC4, cdstC4])]
  rw [c4_norm_src, c4_norm_dst, c4_A, c4_B, c4_AtA, c4_AtB, c4_solve]
  show some _ = some _
  congr 1
  rw [c4_Tinv, c4_T]
  unfold MathUtils.mult Core.multiplyMatrices
  norm_num

/-- Counterexample for C4 as stated: a concrete successful run of
`computeHomography` whose returned bottom-right entry is `1/4`, not 1. -/
theorem computeHomography_h22_not_one :
    (MathUtils.computeHomography csrcC4 cdstC4).map (fun H => H.getD 8 0) =
      some (1 / 4) ∧ (1 / 4 : ℝ) ≠ 1 := by
  rw [c4_computeHomography]
  norm_num

end PM
